import Mathlib

/-!
Verification of the MTProto session core (`ll_mtproto/client.py`): a shallow
embedding of the client session state machine, plus theorems about the
sequence allocator, the ack batcher, the recovery policy and the
pending-request registry.

Python integers are unbounded, so they are embedded as `Int` (or `Nat` for
values used only as identifiers); Python `//` is floor division, embedded as
`Int.fdiv`.  Asynchronous transport writes always complete successfully in
this model, time is an ambient clock value carried in the state, and
`random.randrange` draws from an explicit stream carried in the state.
Exceptions raised while processing a message are modelled by a `Bool`
success flag threaded through the processing functions (`false` means a
raised exception propagating to the caller).

The `MTProto` transport object and the TL `Structure` values are defined
outside the embedded module; they are modelled from the specification's
interface contract (spec §6) where needed.
-/

namespace LLMTProto

/-- `Client._get_next_odd_seqno` value step:
`self._last_seqno = ((self._last_seqno + 1) // 2) * 2 + 1`. -/
def nextOddVal (n : Int) : Int := ((n + 1).fdiv 2) * 2 + 1

/-- `Client._get_next_even_seqno` value step:
`self._last_seqno = (self._last_seqno // 2 + 1) * 2`. -/
def nextEvenVal (n : Int) : Int := (n.fdiv 2 + 1) * 2

/-- TL payloads delivered to callers are opaque to the session core; a
payload is identified by a `Nat` and `Structure.get_dict()` is modelled as
the identity on that identifier. -/
abbrev Payload := Nat

/-- The observable state of an `asyncio.Future` response slot of a
`_PendingRequest`. -/
inductive SlotState where
  /-- the future was created and not yet resolved -/
  | unresolved
  /-- `set_result({})`, from `_process_pong` -/
  | resultEmpty
  /-- `set_result(result.get_dict())`, from `_process_rpc_result` -/
  | resultVal (v : Payload)
  /-- `set_exception(InterruptedError())`, from `_delete_pending_request` -/
  | errInterrupted
deriving Repr, DecidableEq

/-- `asyncio.Future.done()`. -/
def SlotState.isDone : SlotState → Bool
  | .unresolved => false
  | _ => true

/-- The `result` field of an `rpc_result` body: either a `gzip_packed`
wrapper (whose `packed_data` field holds the payload) or a plain payload. -/
inductive RpcRes where
  | gzipPacked (packedData : Payload)
  | plain (d : Payload)
deriving Repr, DecidableEq

/-- The body of a decrypted server message, classified by the constructor
tags `Client` compares against.  A `msg_container` carries inner messages
as `(msg_id, seqno, body)` triples; `gzip_packed` wraps another body in its
`packed_data` field; any other constructor is `other` (ignored by the
dispatcher). -/
inductive Body where
  | gzipPacked (packedData : Body)
  | msgContainer (messages : List (Nat × Int × Body))
  | rpcResult (reqMsgId : Nat) (result : RpcRes)
  | pong (pingId : Int) (msgId : Nat)
  | badServerSalt (badMsgId : Nat) (newServerSalt : Int)
  | badMsgNotification (badMsgId : Nat) (errorCode : Int)
  | other
deriving Repr

/-- One encrypted frame handed to `MTProto.write`: the seqno it was numbered
with, the request's constructor tag, and (for `msgs_ack`) the acknowledged
message ids. -/
structure WriteRec where
  seqno : Int
  cons : String
  ackIds : List Nat
deriving Repr, DecidableEq

/-- Modelled from the spec: the `MTProto` transport object (its source file
is not part of the embedded module).  Spec §6: `write(seqno, **fields)`
synchronously assigns and returns a monotonically increasing message id and
completes asynchronously (writes always complete in this model);
`set_server_salt(salt: i64)` / `get_server_salt → i64` access the held
salt; `stop()` terminates the connection. -/
structure MTProtoTransport where
  serverSalt : Int
  nextMsgId : Nat
  writes : List WriteRec
deriving Repr, DecidableEq

/-- Modelled from the spec: `get_server_salt → i64` (spec §6), an accessor
for the held server salt. -/
def MTProtoTransport.getServerSalt (t : MTProtoTransport) : Int := t.serverSalt

/-- Modelled from the spec: `set_server_salt(salt: i64)` (spec §6),
installs a new server salt into the transport. -/
def MTProtoTransport.setServerSalt (t : MTProtoTransport) (salt : Int) :
    MTProtoTransport := { t with serverSalt := salt }

/-- `_PendingRequest`: the original request message (an association list of
field names to values, as a Python dict) and its single response future,
referred to by slot id. -/
structure PendingRequest where
  request : List (String × String)
  slot : Nat
deriving Repr, DecidableEq

/-- Python dict lookup `d[k]`/`d.get(k)` on an association list. -/
def getA {α : Type} (l : List (Nat × α)) (k : Nat) : Option α :=
  (l.find? (fun p => p.1 == k)).map (fun p => p.2)

/-- Python dict deletion `del d[k]` on an association list. -/
def delA {α : Type} (l : List (Nat × α)) (k : Nat) : List (Nat × α) :=
  l.filter (fun p => p.1 != k)

/-- Python dict assignment `d[k] = v` on an association list. -/
def setA {α : Type} (l : List (Nat × α)) (k : Nat) (v : α) : List (Nat × α) :=
  delA l k ++ [(k, v)]

/-- The fields of `Client` (`client.py` lines 23-53), together with the
modelling devices described in the module docstring: the ambient clock, the
response-slot store, the stream feeding `random.randrange`, a counter of
`InvalidStateError`s raised by resolving an already-resolved future, the
msg ids whose deletion was scheduled with `call_later(600, ...)`, and a
ghost history of every id ever appended to `_msgids_to_ack`. -/
structure ClientState where
  /-- `_seq_no`, assigned `-1` in `__init__` and never read again -/
  seqNo : Int
  /-- ambient `time.time()` value; no embedded operation advances it -/
  clock : Int
  /-- `_mtproto` -/
  mtproto : Option MTProtoTransport
  /-- `_msgids_to_ack` -/
  msgidsToAck : List Nat
  /-- `_last_time_acks_flushed` -/
  lastTimeAcksFlushed : Int
  /-- `_last_seqno` -/
  lastSeqno : Int
  /-- `_stable_seqno` -/
  stableSeqno : Bool
  /-- `_seqno_increment` -/
  seqnoIncrement : Int
  /-- `_mtproto_loop_task`: `some b` means the task exists with done-flag `b` -/
  mtprotoLoopTask : Option Bool
  /-- `_pending_requests` -/
  pendingRequests : List (Nat × PendingRequest)
  /-- `_pending_pongs`: the registered ping ids (each holds a timer handle) -/
  pendingPongs : List Int
  /-- `_pending_ping_request`: whether the next-ping timer is armed -/
  pendingPingRequest : Bool
  /-- the response futures, by slot id -/
  slots : Nat → SlotState
  /-- next fresh slot id -/
  nextSlot : Nat
  /-- explicit stream of values for `random.randrange(-2**63, 2**63)` -/
  rngPingIds : List Int
  /-- how many times a resolved future was resolved again (`InvalidStateError`) -/
  invalidStateAttempts : Nat
  /-- msg ids with a pending `call_later(600, _delete_pending_request, ...)` -/
  scheduledRequestDeletions : List Nat
  /-- ghost history variable: every id appended to `_msgids_to_ack`, in order,
  never cleared (the real buffer is cleared by flushes) -/
  ackEventLog : List Nat

/-- `Client.__init__` (lines 39-53), parameterized by the ambient clock and
the random stream. -/
def initialClientState (clock : Int) (rng : List Int) : ClientState where
  seqNo := -1
  clock := clock
  mtproto := none
  msgidsToAck := []
  lastTimeAcksFlushed := clock
  lastSeqno := 0
  stableSeqno := false
  seqnoIncrement := 1
  mtprotoLoopTask := none
  pendingRequests := []
  pendingPongs := []
  pendingPingRequest := false
  slots := fun _ => .unresolved
  nextSlot := 0
  rngPingIds := rng
  invalidStateAttempts := 0
  scheduledRequestDeletions := []
  ackEventLog := []

/-- `Client._get_next_odd_seqno`: advance `_last_seqno` to the next odd
value and return it. -/
def getNextOddSeqno (s : ClientState) : ClientState × Int :=
  let v := nextOddVal s.lastSeqno
  ({ s with lastSeqno := v }, v)

/-- `Client._get_next_even_seqno`: advance `_last_seqno` to the next even
value and return it. -/
def getNextEvenSeqno (s : ClientState) : ClientState × Int :=
  let v := nextEvenVal s.lastSeqno
  ({ s with lastSeqno := v }, v)

/-- The allocator driven by an arbitrary interleaving of odd/even requests
(`true` requests `_get_next_odd_seqno`, `false` requests
`_get_next_even_seqno`); returns the final state and the returned values in
order. -/
def runAllocator (s : ClientState) : List Bool → ClientState × List Int
  | [] => (s, [])
  | true :: rest =>
    let r := getNextOddSeqno s
    let rr := runAllocator r.1 rest
    (rr.1, r.2 :: rr.2)
  | false :: rest =>
    let r := getNextEvenSeqno s
    let rr := runAllocator r.1 rest
    (rr.1, r.2 :: rr.2)

/-- `Client._delete_pending_pong`: cancel and (optionally) remove the
disconnect timer registered for `ping_id`.  Cancelling the timer has no
further observable effect in this model. -/
def deletePendingPong (s : ClientState) (pingId : Int) (remove : Bool) :
    ClientState :=
  if s.pendingPongs.contains pingId then
    if remove then
      { s with pendingPongs := s.pendingPongs.filter (fun x => x != pingId) }
    else s
  else s

/-- `Client._delete_pending_request`: if `msg_id` is registered, resolve its
response future with `InterruptedError` unless it is already done, and
(optionally) remove the registration. -/
def deletePendingRequest (s : ClientState) (msgId : Nat) (remove : Bool) :
    ClientState :=
  match getA s.pendingRequests msgId with
  | none => s
  | some pr =>
    let s1 :=
      if (s.slots pr.slot).isDone then s
      else { s with slots := fun n => if n = pr.slot then .errInterrupted else s.slots n }
    if remove then { s1 with pendingRequests := delA s1.pendingRequests msgId }
    else s1

/-- `Client._delete_all_pending_pongs`: cancel every pong timer, then clear
the map. -/
def deleteAllPendingPongs (s : ClientState) : ClientState :=
  { s with pendingPongs := [] }

/-- `Client._delete_all_pending_requests`: interrupt every not-yet-resolved
response future, then clear the map. -/
def deleteAllPendingRequests (s : ClientState) : ClientState :=
  let s1 := s.pendingRequests.foldl (fun acc p => deletePendingRequest acc p.1 false) s
  { s1 with pendingRequests := [] }

/-- `Client._delete_all_pending_data`: pongs, then requests, then the
next-ping timer. -/
def deleteAllPendingData (s : ClientState) : ClientState :=
  let s1 := deleteAllPendingRequests (deleteAllPendingPongs s)
  { s1 with pendingPingRequest := false }

/-- `Client.disconnect` (lines 280-288): drop all pending data, cancel the
loop task and stop the transport when present, and clear both handles. -/
def disconnect (s : ClientState) : ClientState :=
  let s1 := deleteAllPendingData s
  { s1 with mtproto := none, mtprotoLoopTask := none }

/-- `Client._flush_msgids_to_ack` (lines 226-235): stamp
`_last_time_acks_flushed` with the current time, return unless the buffer
is non-empty and `_stable_seqno` holds, otherwise number a `msgs_ack` with
a fresh even seqno, write it, and clear the buffer.  The `false` flag marks
the `AttributeError` Python would raise on a missing transport. -/
def flushMsgidsToAck (s : ClientState) : ClientState × Bool :=
  let s := { s with lastTimeAcksFlushed := s.clock }
  if s.msgidsToAck.isEmpty || !s.stableSeqno then (s, true)
  else
    match s.mtproto with
    | none => (s, false)
    | some t =>
      let r := getNextEvenSeqno s
      let t1 : MTProtoTransport :=
        { t with nextMsgId := t.nextMsgId + 1,
                 writes := t.writes ++ [⟨r.2, "msgs_ack", r.1.msgidsToAck⟩] }
      ({ r.1 with mtproto := some t1, msgidsToAck := [] }, true)

/-- `Client._flush_msgids_to_ack_if_needed` (lines 181-183). -/
def flushMsgidsToAckIfNeeded (s : ClientState) : ClientState × Bool :=
  if 32 ≤ s.msgidsToAck.length ∨ 10 < s.clock - s.lastTimeAcksFlushed then
    flushMsgidsToAck s
  else (s, true)

/-- `message["_cons"]`, total on the association list (the call sites of
`_rpc_call` guarantee presence). -/
def reqCons (request : List (String × String)) : String :=
  ((request.find? (fun p => p.1 == "_cons")).map (fun p => p.2)).getD ""

/-- `Client._create_new_ping_request` (lines 105-117): draw a random ping
id, number a `ping` with a fresh odd seqno, create a fresh response future,
arm the 10-second disconnect timer under the ping id, write the ping and
register the pending request under the returned msg id. -/
def createNewPingRequest (s : ClientState) : ClientState :=
  let pingId := s.rngPingIds.headD 0
  let s := { s with rngPingIds := s.rngPingIds.tail }
  let r := getNextOddSeqno s
  let s := r.1
  let request : List (String × String) := [("_cons", "ping"), ("ping_id", toString pingId)]
  let slot := s.nextSlot
  let s := { s with slots := fun n => if n = slot then .unresolved else s.slots n,
                    nextSlot := s.nextSlot + 1 }
  let s := { s with pendingPongs :=
               if s.pendingPongs.contains pingId then s.pendingPongs
               else s.pendingPongs ++ [pingId] }
  match s.mtproto with
  | none => s
  | some t =>
    let t1 : MTProtoTransport :=
      { t with nextMsgId := t.nextMsgId + 1,
               writes := t.writes ++ [⟨r.2, "ping", []⟩] }
    { s with mtproto := some t1,
             pendingRequests := setA s.pendingRequests t.nextMsgId ⟨request, slot⟩ }

/-- `Client._start_mtproto_loop` (lines 88-100): drop all pending data,
cancel and stop any previous connection, install a fresh transport (its
initial salt is not fixed by the spec; `0` here), start the read-loop task
and issue the initial ping. -/
def startMtprotoLoop (s : ClientState) : ClientState :=
  let s := deleteAllPendingData s
  let s := { s with mtproto := some { serverSalt := 0, nextMsgId := 0, writes := [] },
                    mtprotoLoopTask := some false }
  createNewPingRequest s

/-- `Client._rpc_call` (lines 62-86) up to and including its synchronous
effects: restart the loop when the transport is absent or its task is done,
flush pending acks, number the request with a fresh odd seqno, write it,
register the pending request under the returned msg id, bump
`_seqno_increment`, and in `no_response` mode schedule the registration's
deletion after 600 seconds.  Returns the assigned msg id and the success
flag (awaiting the response future itself is outside this model). -/
def rpcCallSend (s : ClientState) (pr : PendingRequest) (noResponse : Bool) :
    ClientState × Nat × Bool :=
  let s := if s.mtproto.isNone || s.mtprotoLoopTask.getD true then startMtprotoLoop s else s
  let f := flushMsgidsToAck s
  if !f.2 then (f.1, 0, false)
  else
    let r := getNextOddSeqno f.1
    match r.1.mtproto with
    | none => (r.1, 0, false)
    | some t =>
      let t1 : MTProtoTransport :=
        { t with nextMsgId := t.nextMsgId + 1,
                 writes := t.writes ++ [⟨r.2, reqCons pr.request, []⟩] }
      let s := { r.1 with mtproto := some t1,
                          pendingRequests := setA r.1.pendingRequests t.nextMsgId pr }
      let s := { s with seqnoIncrement := s.seqnoIncrement + 1 }
      let s := if noResponse
               then { s with scheduledRequestDeletions := s.scheduledRequestDeletions ++ [t.nextMsgId] }
               else s
      (s, t.nextMsgId, true)

/-- `Client.rpc_call` (lines 55-60): raise `RuntimeError` when `"_cons"` is
missing from the message (the `false` flag, with no state change),
otherwise create a fresh `_PendingRequest` and submit it. -/
def rpcCall (s : ClientState) (message : List (String × String)) :
    ClientState × Bool :=
  if !(message.any (fun p => p.1 == "_cons")) then (s, false)
  else
    let slot := s.nextSlot
    let s := { s with slots := fun n => if n = slot then .unresolved else s.slots n,
                      nextSlot := s.nextSlot + 1 }
    let r := rpcCallSend s ⟨message, slot⟩ false
    (r.1, r.2.2)

/-- `asyncio.Future.set_result`/`set_exception` on a response slot: fails
with `InvalidStateError` (counted, `false` flag) when the slot is already
resolved. -/
def setSlotResult (s : ClientState) (slotId : Nat) (v : SlotState) :
    ClientState × Bool :=
  if (s.slots slotId).isDone then
    ({ s with invalidStateAttempts := s.invalidStateAttempts + 1 }, false)
  else
    ({ s with slots := fun n => if n = slotId then v else s.slots n }, true)

/-- `Client._process_rpc_result` (lines 266-278): set `_stable_seqno`, then
if `req_msg_id` is registered, remove the registration, unwrap a
`gzip_packed` result wrapper, and resolve the response future with the
result's dict. -/
def processRpcResult (s : ClientState) (reqMsgId : Nat) (result : RpcRes) :
    ClientState × Bool :=
  let s := { s with stableSeqno := true }
  match getA s.pendingRequests reqMsgId with
  | none => (s, true)
  | some pr =>
    let s := { s with pendingRequests := delA s.pendingRequests reqMsgId }
    let v : Payload :=
      match result with
      | .gzipPacked d => d
      | .plain d => d
    setSlotResult s pr.slot (.resultVal v)

/-- `Client._process_pong` (lines 211-219): drop the pong's disconnect
timer, resolve the pending request registered under the pong's `msg_id`
with `{}` when present, and arm the next-ping timer. -/
def processPong (s : ClientState) (pingId : Int) (msgId : Nat) :
    ClientState × Bool :=
  let s := deletePendingPong s pingId true
  let r : ClientState × Bool :=
    match getA s.pendingRequests msgId with
    | some pr => setSlotResult s pr.slot .resultEmpty
    | none => (s, true)
  if r.2 then ({ r.1 with pendingPingRequest := true }, true) else r

/-- `Client._process_bad_server_salt` (lines 240-253): when the held salt
is non-zero, reset `_stable_seqno`; install the server-supplied salt; when
`bad_msg_id` is registered, detach that pending request and re-submit it in
`no_response` mode. -/
def processBadServerSalt (s : ClientState) (badMsgId : Nat) (newServerSalt : Int) :
    ClientState × Bool :=
  match s.mtproto with
  | none => (s, false)
  | some t =>
    let s := if t.getServerSalt != 0 then { s with stableSeqno := false } else s
    let s := { s with mtproto := some (t.setServerSalt newServerSalt) }
    match getA s.pendingRequests badMsgId with
    | some pr =>
      let s := { s with pendingRequests := delA s.pendingRequests badMsgId }
      let r := rpcCallSend s pr true
      (r.1, r.2.2)
    | none => (s, true)

/-- `Client._process_bad_msg_notification_msg_seqno_too_low` (lines
255-264): double `_seqno_increment` clamped to `2^31 - 1` (`<< 1` on a
Python int is doubling), advance `_last_seqno` by the new increment, and
when `bad_msg_id` is registered, detach that pending request and re-submit
it in `no_response` mode. -/
def processBadMsgSeqnoTooLow (s : ClientState) (badMsgId : Nat) :
    ClientState × Bool :=
  let inc := min (2 ^ 31 - 1) (s.seqnoIncrement * 2)
  let s := { s with seqnoIncrement := inc, lastSeqno := s.lastSeqno + inc }
  match getA s.pendingRequests badMsgId with
  | some pr =>
    let s := { s with pendingRequests := delA s.pendingRequests badMsgId }
    let r := rpcCallSend s pr true
    (r.1, r.2.2)
  | none => (s, true)

/-- `Client._process_telegram_message_body` (lines 198-209): route the body
on its constructor tag; `bad_msg_notification` is handled only for error
code 32 while `_stable_seqno` is false; unknown constructors are ignored. -/
def processTelegramMessageBody (s : ClientState) (b : Body) : ClientState × Bool :=
  match b with
  | .rpcResult req res => processRpcResult s req res
  | .pong pid mid => processPong s pid mid
  | .badServerSalt bmid salt => processBadServerSalt s bmid salt
  | .badMsgNotification bmid ec =>
      if ec == 32 && !s.stableSeqno then processBadMsgSeqnoTooLow s bmid
      else (s, true)
  | _ => (s, true)

/-- The single gzip unwrap performed by `_process_telegram_message` line
188: `message.body.packed_data if message.body == "gzip_packed" else
message.body`. -/
def unwrapGzip : Body → Body
  | .gzipPacked inner => inner
  | b => b

/-- `Client._acknowledge_telegram_message` (lines 221-224): when the
message's seqno is odd, append its msg id to `_msgids_to_ack` (and to the
ghost history) and attempt a flush. -/
def acknowledgeTelegramMessage (s : ClientState) (msgId : Nat) (seqno : Int) :
    ClientState × Bool :=
  if seqno % 2 == 1 then
    flushMsgidsToAck
      { s with msgidsToAck := s.msgidsToAck ++ [msgId],
               ackEventLog := s.ackEventLog ++ [msgId] }
  else (s, true)

mutual

/-- `Client._process_telegram_message` (lines 185-196): observe the seqno,
unwrap one gzip layer, recurse into a `msg_container`, otherwise process
the body and acknowledge the message. -/
def processTelegramMessage (s : ClientState) (msgId : Nat) (seqno : Int) (b : Body) :
    ClientState × Bool :=
  let s1 := { s with lastSeqno := max s.lastSeqno seqno }
  match hb : unwrapGzip b with
  | .msgContainer msgs => processContainerMessages s1 msgs
  | body =>
    let r := processTelegramMessageBody s1 body
    if r.2 then acknowledgeTelegramMessage r.1 msgId seqno else r
termination_by sizeOf b
decreasing_by
  simp_wf
  cases b with
  | gzipPacked inner =>
      simp only [unwrapGzip] at hb
      subst hb
      simp
      omega
  | msgContainer l =>
      simp only [unwrapGzip] at hb
      cases hb
      simp
  | rpcResult a c => simp [unwrapGzip] at hb
  | pong a c => simp [unwrapGzip] at hb
  | badServerSalt a c => simp [unwrapGzip] at hb
  | badMsgNotification a c => simp [unwrapGzip] at hb
  | other => simp [unwrapGzip] at hb

/-- The `for m in body.messages` loop of `_process_telegram_message`: a
raised exception aborts the remaining inner messages. -/
def processContainerMessages (s : ClientState) (ms : List (Nat × Int × Body)) :
    ClientState × Bool :=
  match ms with
  | [] => (s, true)
  | (mid, sq, b) :: rest =>
    let r := processTelegramMessage s mid sq b
    if r.2 then processContainerMessages r.1 rest else r
termination_by sizeOf ms
decreasing_by
  all_goals simp_wf
  all_goals omega

end

/-- One iteration of `Client._mtproto_loop` (lines 156-170) after a message
was read: process it and attempt a threshold flush; exceptions from either
step are logged and swallowed by the loop-level handler. -/
def mtprotoLoopStep (s : ClientState) (msgId : Nat) (seqno : Int) (b : Body) :
    ClientState :=
  let r := processTelegramMessage s msgId seqno b
  if r.2 then (flushMsgidsToAckIfNeeded r.1).1 else r.1

mutual

/-- Whether a server body contains a `pong` anywhere (also inside gzip
wrappers and containers). -/
def bodyHasPong : Body → Bool
  | .pong _ _ => true
  | .gzipPacked inner => bodyHasPong inner
  | .msgContainer msgs => msgsHavePong msgs
  | _ => false

/-- `bodyHasPong` over the inner messages of a container. -/
def msgsHavePong : List (Nat × Int × Body) → Bool
  | [] => false
  | (_, _, b) :: rest => bodyHasPong b || msgsHavePong rest

end

/-- An externally triggered operation on the session: one read-loop
iteration for an inbound message, a caller's `rpc_call`, the firing of a
600-second deletion timer, or `disconnect`. -/
inductive SessionOp where
  | inbound (msgId : Nat) (seqno : Int) (b : Body)
  | callRpc (message : List (String × String))
  | expire (msgId : Nat)
  | doDisconnect

/-- The read loop only dispatches while the transport exists and its task
is running. -/
def loopAlive (s : ClientState) : Bool :=
  s.mtproto.isSome && s.mtprotoLoopTask == some false

/-- Apply one session operation. -/
def sessionStep (s : ClientState) : SessionOp → ClientState
  | .inbound mid sq b => if loopAlive s then mtprotoLoopStep s mid sq b else s
  | .callRpc msg => (rpcCall s msg).1
  | .expire mid => deletePendingRequest s mid true
  | .doDisconnect => disconnect s

/-- Run a list of session operations in order. -/
def runSession (s : ClientState) : List SessionOp → ClientState
  | [] => s
  | op :: rest => runSession (sessionStep s op) rest

/-- Whether a session operation involves a `pong` fulfilment. -/
def opPongFree : SessionOp → Bool
  | .inbound _ _ b => !bodyHasPong b
  | _ => true

mutual

/-- The acknowledgment rule as the specification words it (spec §4.5 step
5): a non-container body is acknowledged iff the carrying message's seqno
is odd; a container is never acknowledged itself, each inner message being
eligible under the same rule.  Compared against the embedded dispatcher's
ghost history. -/
def eligibleAckIds (msgId : Nat) (seqno : Int) (b : Body) : List Nat :=
  match hb : unwrapGzip b with
  | .msgContainer msgs => eligibleAckIdsList msgs
  | _ => if seqno % 2 == 1 then [msgId] else []
termination_by sizeOf b
decreasing_by
  simp_wf
  cases b with
  | gzipPacked inner =>
      simp only [unwrapGzip] at hb
      subst hb
      simp
      omega
  | msgContainer l =>
      simp only [unwrapGzip] at hb
      cases hb
      simp
  | rpcResult a c => simp [unwrapGzip] at hb
  | pong a c => simp [unwrapGzip] at hb
  | badServerSalt a c => simp [unwrapGzip] at hb
  | badMsgNotification a c => simp [unwrapGzip] at hb
  | other => simp [unwrapGzip] at hb

/-- `eligibleAckIds` over the inner messages of a container. -/
def eligibleAckIdsList : List (Nat × Int × Body) → List Nat
  | [] => []
  | (mid, sq, b) :: rest => eligibleAckIds mid sq b ++ eligibleAckIdsList rest
termination_by ms => sizeOf ms
decreasing_by
  all_goals simp_wf
  all_goals omega

end

/-- A concrete session state with a non-empty ack buffer, `_stable_seqno`
set, and a live transport: exercise state for the flush theorems. -/
def flushDemoState : ClientState :=
  { initialClientState 0 [] with
      msgidsToAck := [7, 8],
      stableSeqno := true,
      mtproto := some { serverSalt := 5, nextMsgId := 9, writes := [] },
      mtprotoLoopTask := some false }

/-- A concrete connected session state holding one pending request under
msg id 100 (slot 0), with `_stable_seqno = false` and
`_seqno_increment = 1`: the scenario premised by the recovery claims. -/
def recoveryDemoState : ClientState :=
  { initialClientState 0 [] with
      lastSeqno := 1,
      mtproto := some { serverSalt := 7, nextMsgId := 50, writes := [] },
      mtprotoLoopTask := some false,
      pendingRequests := [(100, { request := [("_cons", "help.getConfig")], slot := 0 })],
      nextSlot := 1 }

/-- The session state after the first error-32 notification of the C2
scenario is dispatched from `recoveryDemoState`: increment doubled to 2 and
advanced once more to 3 by the re-send, `_last_seqno` advanced to
`nextOddVal (1 + 2) = 5`, the request re-sent and re-registered under msg
id 50 with its deletion scheduled. -/
def c2MidState : ClientState :=
  { recoveryDemoState with
      lastSeqno := 5,
      seqnoIncrement := 3,
      mtproto := some { serverSalt := 7, nextMsgId := 51,
                        writes := [⟨5, "help.getConfig", []⟩] },
      pendingRequests := [(50, ⟨[("_cons", "help.getConfig")], 0⟩)],
      scheduledRequestDeletions := [50] }

/-- A freshly connected session (live transport and loop task, everything
else as in `__init__`): start state for the ack-threshold trace. -/
def c10StartState : ClientState :=
  { initialClientState 0 [] with
      mtproto := some { serverSalt := 0, nextMsgId := 0, writes := [] },
      mtprotoLoopTask := some false }

/-- Thirty-five read-loop iterations, each dispatching an odd-seqno
unknown-constructor message (ids 0..34), from the fresh session: every
append is followed by a flush attempt, but `_stable_seqno` is still false
so each flush is gated and the buffer grows unboundedly. -/
def c10GrownState : ClientState :=
  (List.range 35).foldl (fun st mid => mtprotoLoopStep st mid 1 Body.other) c10StartState

/-- The state after `recoveryDemoState` dispatches `pong{ping_id=7,
msg_id=100}`: the response slot 0 is resolved with `{}` but the
registration under msg id 100 is left in place (`_process_pong` removes
nothing from `_pending_requests`), and the next-ping timer is armed. -/
def c9MidState : ClientState :=
  { recoveryDemoState with
      lastSeqno := 1,
      slots := fun n => if n = 0 then SlotState.resultEmpty else SlotState.unresolved,
      pendingPingRequest := true }

/-- The registry safety invariant of the session: the `InvalidStateError`
counter is pinned, every registered pending request's response slot is
still unresolved and was allocated below the fresh-slot counter, and no two
registrations share a response slot. -/
def SafeInv (s : ClientState) (a : Nat) : Prop :=
  s.invalidStateAttempts = a
  ∧ (∀ p ∈ s.pendingRequests, s.slots p.2.slot = SlotState.unresolved ∧ p.2.slot < s.nextSlot)
  ∧ s.pendingRequests.Pairwise (fun p q => p.2.slot ≠ q.2.slot)

/-- A detached (or fresh) pending request fit for (re-)submission: its slot
is unresolved, below the fresh-slot counter, and not shared with any
registered request. -/
def PrOk (s : ClientState) (pr : PendingRequest) : Prop :=
  s.slots pr.slot = SlotState.unresolved
  ∧ pr.slot < s.nextSlot
  ∧ ∀ q ∈ s.pendingRequests, q.2.slot ≠ pr.slot

/-! ## Theorems -/

theorem nextOddVal_odd (n : Int) : nextOddVal n % 2 = 1 := by
  unfold nextOddVal
  omega

theorem lt_nextOddVal (n : Int) : n < nextOddVal n := by
  unfold nextOddVal
  rw [Int.fdiv_eq_ediv _ (by norm_num)]
  omega

theorem nextEvenVal_even (n : Int) : nextEvenVal n % 2 = 0 := by
  unfold nextEvenVal
  omega

theorem lt_nextEvenVal (n : Int) : n < nextEvenVal n := by
  unfold nextEvenVal
  rw [Int.fdiv_eq_ediv _ (by norm_num)]
  omega

/-- **C1**: for every sequence of allocator calls (`true` = odd request via
`_get_next_odd_seqno`, `false` = even request via `_get_next_even_seqno`),
starting from any held `_last_seqno`, the chain of returned values headed
by the prior `_last_seqno` is strictly increasing — so each returned value
strictly exceeds the `_last_seqno` held before its call and the values
never repeat — and every returned value has the requested parity. -/
theorem c1_allocator_monotone_and_parity_correct (reqs : List Bool) (s : ClientState) :
    List.Chain (· < ·) s.lastSeqno (runAllocator s reqs).2
    ∧ ((runAllocator s reqs).2.zip reqs).all
        (fun p => (p.1 % 2 == 1) == p.2) = true := by
  induction reqs generalizing s with
  | nil => simp [runAllocator]
  | cons w rest ih =>
    cases w with
    | false =>
      have h1 := lt_nextEvenVal s.lastSeqno
      have h2 := nextEvenVal_even s.lastSeqno
      obtain ⟨ihc, ihp⟩ := ih { s with lastSeqno := nextEvenVal s.lastSeqno }
      simp only [runAllocator, getNextEvenSeqno, List.chain_cons,
        List.zip_cons_cons, List.all_cons, Bool.and_eq_true]
      exact ⟨⟨h1, ihc⟩, by simp [h2], ihp⟩
    | true =>
      have h1 := lt_nextOddVal s.lastSeqno
      have h2 := nextOddVal_odd s.lastSeqno
      obtain ⟨ihc, ihp⟩ := ih { s with lastSeqno := nextOddVal s.lastSeqno }
      simp only [runAllocator, getNextOddSeqno, List.chain_cons,
        List.zip_cons_cons, List.all_cons, Bool.and_eq_true]
      exact ⟨⟨h1, ihc⟩, by simp [h2], ihp⟩

theorem createNewPingRequest_mtproto_isSome (s : ClientState) :
    (createNewPingRequest s).mtproto.isSome = s.mtproto.isSome := by
  unfold createNewPingRequest
  cases h : s.mtproto <;> simp [h, getNextOddSeqno]

theorem startMtprotoLoop_mtproto_isSome (s : ClientState) :
    (startMtprotoLoop s).mtproto.isSome = true := by
  unfold startMtprotoLoop
  rw [createNewPingRequest_mtproto_isSome]
  simp

theorem flushMsgidsToAck_mtproto_isSome (s : ClientState) :
    (flushMsgidsToAck s).1.mtproto.isSome = s.mtproto.isSome := by
  simp only [flushMsgidsToAck]
  split
  · simp
  · cases h : s.mtproto <;> simp [h, getNextEvenSeqno]

theorem flushMsgidsToAck_ok_of_isSome (s : ClientState)
    (h : s.mtproto.isSome = true) : (flushMsgidsToAck s).2 = true := by
  simp only [flushMsgidsToAck]
  split
  · rfl
  · cases hm : s.mtproto
    · simp [hm] at h
    · simp [hm, getNextEvenSeqno]

theorem getNextOddSeqno_mtproto (s : ClientState) :
    (getNextOddSeqno s).1.mtproto = s.mtproto := rfl

theorem rpcCallSend_ok (s : ClientState) (pr : PendingRequest) (noResponse : Bool) :
    (rpcCallSend s pr noResponse).2.2 = true := by
  unfold rpcCallSend
  set s1 := if s.mtproto.isNone || s.mtprotoLoopTask.getD true then startMtprotoLoop s else s with hs1
  have hsome : s1.mtproto.isSome = true := by
    rw [hs1]
    split
    · exact startMtprotoLoop_mtproto_isSome s
    · rename_i hcond
      simp only [Bool.or_eq_true, not_or] at hcond
      cases hm : s.mtproto
      · simp [hm] at hcond
      · simp
  have hok := flushMsgidsToAck_ok_of_isSome s1 hsome
  simp only [hok, Bool.not_true, if_false]
  have hsome2 : (getNextOddSeqno (flushMsgidsToAck s1).1).1.mtproto.isSome = true := by
    rw [getNextOddSeqno_mtproto, flushMsgidsToAck_mtproto_isSome]
    exact hsome
  cases hm : (getNextOddSeqno (flushMsgidsToAck s1).1).1.mtproto
  · rw [hm] at hsome2
    simp at hsome2
  · simp [hm]

/-- **C7**: `rpc_call` raises its usage error (`RuntimeError`, the `false`
flag) if and only if the key `"_cons"` is absent from the request mapping,
and in that failing case it raises before performing any other action, so
the session state is returned unchanged. -/
theorem c7_rpc_call_usage_error_iff_missing_cons (s : ClientState)
    (message : List (String × String)) :
    ((rpcCall s message).2 = false ↔ message.any (fun p => p.1 == "_cons") = false)
    ∧ (message.any (fun p => p.1 == "_cons") = false → rpcCall s message = (s, false)) := by
  refine ⟨⟨?_, ?_⟩, ?_⟩
  · intro h
    by_contra hc
    have hc' : message.any (fun p => p.1 == "_cons") = true := by
      cases hany : message.any (fun p => p.1 == "_cons")
      · exact absurd hany hc
      · rfl
    rw [rpcCall, hc'] at h
    simp only [Bool.not_true, if_false] at h
    rw [rpcCallSend_ok] at h
    exact absurd h (by simp)
  · intro h
    rw [rpcCall, h]
    rfl
  · intro h
    rw [rpcCall, h]
    rfl

/-- Witness for C7 at a concrete input: a request without `"_cons"` is
rejected with the state unchanged. -/
theorem c7_witness :
    rpcCall (initialClientState 0 []) [("x", "y")] = (initialClientState 0 [], false) :=
  (c7_rpc_call_usage_error_iff_missing_cons (initialClientState 0 []) [("x", "y")]).2 (by rfl)

theorem flush_gated_eq (s : ClientState)
    (h : (s.msgidsToAck.isEmpty || !s.stableSeqno) = true) :
    flushMsgidsToAck s = ({ s with lastTimeAcksFlushed := s.clock }, true) := by
  simp only [flushMsgidsToAck]
  split
  · rfl
  · rename_i hc
    simp only [h] at hc
    exact absurd trivial hc

theorem flush_write_eq (s : ClientState) (t : MTProtoTransport)
    (h1 : s.msgidsToAck.isEmpty = false) (h2 : s.stableSeqno = true)
    (hm : s.mtproto = some t) :
    flushMsgidsToAck s =
      ({ s with lastTimeAcksFlushed := s.clock,
                lastSeqno := nextEvenVal s.lastSeqno,
                mtproto := some { t with
                    nextMsgId := t.nextMsgId + 1,
                    writes := t.writes ++ [⟨nextEvenVal s.lastSeqno, "msgs_ack", s.msgidsToAck⟩] },
                msgidsToAck := [] }, true) := by
  simp [flushMsgidsToAck, h1, h2, hm, getNextEvenSeqno]

/-- **C5 (counterexample)**: an invocation of `_flush_msgids_to_ack` that
finds the ack buffer empty still changes the `last_flush` instant, because
`_last_time_acks_flushed` is stamped at entry before the gate check —
contradicting the claim that such an invocation leaves it unchanged. -/
theorem c5_counterexample :
    ({ initialClientState 0 [] with clock := 42 } : ClientState).msgidsToAck.isEmpty = true
    ∧ (flushMsgidsToAck { initialClientState 0 [] with clock := 42 }).1.lastTimeAcksFlushed
        ≠ ({ initialClientState 0 [] with clock := 42 } : ClientState).lastTimeAcksFlushed := by
  constructor
  · rfl
  · decide

/-- **C5 (amended)**: an invocation of `_flush_msgids_to_ack` that finds
the buffer empty or `_stable_seqno` false writes nothing and leaves the
buffer unchanged, but always stamps `_last_time_acks_flushed` with the
current instant (the stamp happens at entry on every invocation); an
invocation with a non-empty buffer and `_stable_seqno` true writes exactly
one `msgs_ack` carrying the buffered ids under a freshly allocated even
seqno, clears the buffer, and stamps the `last_flush` instant. -/
theorem c5_flush_gate_and_success (s : ClientState) (t : MTProtoTransport) :
    ((s.msgidsToAck.isEmpty || !s.stableSeqno) = true →
        flushMsgidsToAck s = ({ s with lastTimeAcksFlushed := s.clock }, true))
    ∧ (s.msgidsToAck.isEmpty = false → s.stableSeqno = true → s.mtproto = some t →
        flushMsgidsToAck s =
          ({ s with lastTimeAcksFlushed := s.clock,
                    lastSeqno := nextEvenVal s.lastSeqno,
                    mtproto := some { t with
                        nextMsgId := t.nextMsgId + 1,
                        writes := t.writes ++ [⟨nextEvenVal s.lastSeqno, "msgs_ack", s.msgidsToAck⟩] },
                    msgidsToAck := [] }, true)) :=
  ⟨flush_gated_eq s, fun h1 h2 hm => flush_write_eq s t h1 h2 hm⟩

/-- Witness for C5 at concrete inputs: a gated invocation (buffer empty)
only stamps the instant; a successful invocation writes the single
`msgs_ack` and clears the buffer. -/
theorem c5_witness :
    ((initialClientState 3 []).msgidsToAck.isEmpty || !(initialClientState 3 []).stableSeqno) = true
    ∧ flushMsgidsToAck (initialClientState 3 [])
        = ({ initialClientState 3 [] with lastTimeAcksFlushed := 3 }, true)
    ∧ flushDemoState.msgidsToAck.isEmpty = false
    ∧ flushMsgidsToAck flushDemoState
        = ({ flushDemoState with
               lastTimeAcksFlushed := 0,
               lastSeqno := nextEvenVal 0,
               mtproto := some { serverSalt := 5, nextMsgId := 10,
                                 writes := [⟨nextEvenVal 0, "msgs_ack", [7, 8]⟩] },
               msgidsToAck := [] }, true) :=
  ⟨by decide,
   (c5_flush_gate_and_success (initialClientState 3 []) ⟨0, 0, []⟩).1 (by decide),
   by decide,
   (c5_flush_gate_and_success flushDemoState ⟨5, 9, []⟩).2 (by decide) (by decide) rfl⟩

/-- **C3 (counterexample)**: processing an `rpc_result` whose `req_msg_id`
is not registered does not leave the session state unchanged: it flips
`_stable_seqno` (set unconditionally at the top of `_process_rpc_result`,
before the registry lookup). -/
theorem c3_counterexample :
    (processRpcResult (initialClientState 0 []) 555 (.plain 3)).1.stableSeqno
      ≠ (initialClientState 0 []).stableSeqno := by
  decide

/-- **C3 (amended)**: processing an `rpc_result` whose `req_msg_id` is not
a key of the pending-request registry leaves the registry and every
response slot unchanged, but unconditionally sets `_stable_seqno` to true —
`_stable_seqno` becomes true on every processed `rpc_result`, registered or
not, not only on one that fulfils a registered pending request. -/
theorem c3_unknown_rpc_result_sets_stable_only (s : ClientState) (reqMsgId : Nat)
    (res : RpcRes) (h : getA s.pendingRequests reqMsgId = none) :
    processRpcResult s reqMsgId res = ({ s with stableSeqno := true }, true) := by
  simp [processRpcResult, h]

/-- Witness for C3 at a concrete input: an `rpc_result` with an unknown
`req_msg_id` processed from the initial state. -/
theorem c3_witness :
    getA (initialClientState 0 []).pendingRequests 555 = none
    ∧ processRpcResult (initialClientState 0 []) 555 (.plain 3)
        = ({ initialClientState 0 [] with stableSeqno := true }, true) :=
  ⟨rfl, c3_unknown_rpc_result_sets_stable_only (initialClientState 0 []) 555 (.plain 3) rfl⟩

theorem rpcCallSend_gated_eq (s : ClientState) (t : MTProtoTransport)
    (pr : PendingRequest) (nr : Bool)
    (hm : s.mtproto = some t) (htask : s.mtprotoLoopTask = some false)
    (hc : (s.msgidsToAck.isEmpty || !s.stableSeqno) = true) :
    rpcCallSend s pr nr =
      ({ s with lastTimeAcksFlushed := s.clock,
                lastSeqno := nextOddVal s.lastSeqno,
                mtproto := some { t with
                    nextMsgId := t.nextMsgId + 1,
                    writes := t.writes ++ [⟨nextOddVal s.lastSeqno, reqCons pr.request, []⟩] },
                pendingRequests := setA s.pendingRequests t.nextMsgId pr,
                seqnoIncrement := s.seqnoIncrement + 1,
                scheduledRequestDeletions :=
                  if nr then s.scheduledRequestDeletions ++ [t.nextMsgId]
                  else s.scheduledRequestDeletions },
       t.nextMsgId, true) := by
  cases nr <;>
    simp [rpcCallSend, hm, htask, flush_gated_eq _ hc, getNextOddSeqno]

theorem rpcCallSend_write_eq (s : ClientState) (t : MTProtoTransport)
    (pr : PendingRequest) (nr : Bool)
    (hm : s.mtproto = some t) (htask : s.mtprotoLoopTask = some false)
    (h1 : s.msgidsToAck.isEmpty = false) (h2 : s.stableSeqno = true) :
    rpcCallSend s pr nr =
      ({ s with lastTimeAcksFlushed := s.clock,
                lastSeqno := nextOddVal (nextEvenVal s.lastSeqno),
                mtproto := some { t with
                    nextMsgId := t.nextMsgId + 1 + 1,
                    writes := t.writes ++ [⟨nextEvenVal s.lastSeqno, "msgs_ack", s.msgidsToAck⟩]
                      ++ [⟨nextOddVal (nextEvenVal s.lastSeqno), reqCons pr.request, []⟩] },
                msgidsToAck := [],
                pendingRequests := setA s.pendingRequests (t.nextMsgId + 1) pr,
                seqnoIncrement := s.seqnoIncrement + 1,
                scheduledRequestDeletions :=
                  if nr then s.scheduledRequestDeletions ++ [t.nextMsgId + 1]
                  else s.scheduledRequestDeletions },
       t.nextMsgId + 1, true) := by
  cases nr <;>
    simp [rpcCallSend, hm, htask, flush_write_eq s t h1 h2 hm, getNextOddSeqno]

theorem rpcCallSend_salt_stable (s : ClientState) (t : MTProtoTransport)
    (pr : PendingRequest) (nr : Bool)
    (hm : s.mtproto = some t) (htask : s.mtprotoLoopTask = some false) :
    ∃ u, (rpcCallSend s pr nr).1.mtproto = some u
      ∧ u.serverSalt = t.serverSalt
      ∧ (rpcCallSend s pr nr).1.stableSeqno = s.stableSeqno := by
  by_cases hc : (s.msgidsToAck.isEmpty || !s.stableSeqno) = true
  · rw [rpcCallSend_gated_eq s t pr nr hm htask hc]
    exact ⟨_, rfl, rfl, rfl⟩
  · have h1 : s.msgidsToAck.isEmpty = false := by
      cases he : s.msgidsToAck.isEmpty
      · rfl
      · exact absurd (by simp [he]) hc
    have h2 : s.stableSeqno = true := by
      cases hs2 : s.stableSeqno
      · exact absurd (by simp [hs2]) hc
      · rfl
    rw [rpcCallSend_write_eq s t pr nr hm htask h1 h2]
    exact ⟨_, rfl, rfl, rfl⟩

/-- **C4**: when a `bad_server_salt` is processed (with the read loop
alive), `_stable_seqno` is reset to false exactly when the transport's
previously held salt was non-zero — when the held salt was zero it is left
unchanged — and in every case the server-supplied `new_server_salt` is
installed into the transport (surviving also the re-submission of the
culprit request). -/
theorem c4_bad_server_salt_salt_installed_stable_reset_iff (s : ClientState)
    (t : MTProtoTransport) (badMsgId : Nat) (newSalt : Int)
    (hm : s.mtproto = some t) (htask : s.mtprotoLoopTask = some false) :
    ∃ u, (processBadServerSalt s badMsgId newSalt).1.mtproto = some u
      ∧ u.serverSalt = newSalt
      ∧ (processBadServerSalt s badMsgId newSalt).1.stableSeqno
          = (if t.getServerSalt = 0 then s.stableSeqno else false) := by
  cases hcond : (t.getServerSalt != 0) with
  | false =>
    have h0 : t.getServerSalt = 0 := by simpa using hcond
    rw [if_pos h0]
    simp only [processBadServerSalt, hm, hcond, Bool.false_eq_true, if_false]
    cases hp : getA s.pendingRequests badMsgId with
    | none =>
      simp only [hp]
      exact ⟨t.setServerSalt newSalt, rfl, rfl, by trivial⟩
    | some pr =>
      simp only [hp]
      obtain ⟨u, h1, h2, h3⟩ := rpcCallSend_salt_stable
        { s with mtproto := some (t.setServerSalt newSalt),
                 pendingRequests := delA s.pendingRequests badMsgId }
        (t.setServerSalt newSalt) pr true rfl htask
      exact ⟨u, h1, h2.trans rfl, h3⟩
  | true =>
    have h0 : ¬t.getServerSalt = 0 := by simpa using hcond
    rw [if_neg h0]
    simp only [processBadServerSalt, hm, hcond, if_true]
    cases hp : getA s.pendingRequests badMsgId with
    | none =>
      simp only [hp]
      exact ⟨t.setServerSalt newSalt, rfl, rfl, by trivial⟩
    | some pr =>
      simp only [hp]
      obtain ⟨u, h1, h2, h3⟩ := rpcCallSend_salt_stable
        { s with stableSeqno := false,
                 mtproto := some (t.setServerSalt newSalt),
                 pendingRequests := delA s.pendingRequests badMsgId }
        (t.setServerSalt newSalt) pr true rfl htask
      exact ⟨u, h1, h2.trans rfl, h3⟩

/-- Witness for C4 at a concrete input: `recoveryDemoState` holds salt 7
(non-zero) and a pending request under the reported `bad_msg_id`, so
processing `bad_server_salt{bad_msg_id=100, new_server_salt=99}` installs
salt 99 and resets `_stable_seqno`. -/
theorem c4_witness :
    ∃ u, (processBadServerSalt recoveryDemoState 100 99).1.mtproto = some u
      ∧ u.serverSalt = 99
      ∧ (processBadServerSalt recoveryDemoState 100 99).1.stableSeqno
          = (if (MTProtoTransport.mk 7 50 []).getServerSalt = 0
             then recoveryDemoState.stableSeqno else false) :=
  c4_bad_server_salt_salt_installed_stable_reset_iff recoveryDemoState
    ⟨7, 50, []⟩ 100 99 rfl rfl

theorem getA_setA_self {α : Type} (l : List (Nat × α)) (k : Nat) (v : α) :
    getA (setA l k v) k = some v := by
  unfold getA setA delA
  induction l with
  | nil => simp
  | cons p rest ih =>
    by_cases hk : p.1 = k
    · simpa [List.filter_cons, hk] using ih
    · simpa [List.filter_cons, hk, List.find?_cons, bne, Ne.symm hk] using ih

/-- Full effect of one read-loop dispatch of a `bad_msg_notification` with
`error_code = 32` (seqno even, here 0) from a state with a live loop,
`_stable_seqno = false` and `bad_msg_id` registered: the increment is
doubled and clamped, `_last_seqno` advances by the new increment, and the
detached request is re-sent — the re-send allocating a fresh odd seqno,
re-registering the request under the transport's next msg id, bumping
`_seqno_increment` once more and scheduling the 600-second deletion. -/
theorem processTelegramMessage_badMsg32_eq (s : ClientState) (t : MTProtoTransport)
    (pr : PendingRequest) (bmid mid : Nat)
    (hm : s.mtproto = some t) (htask : s.mtprotoLoopTask = some false)
    (hstable : s.stableSeqno = false) (hp : getA s.pendingRequests bmid = some pr)
    (h0 : 0 ≤ s.lastSeqno) :
    processTelegramMessage s mid 0 (.badMsgNotification bmid 32) =
      ({ s with lastTimeAcksFlushed := s.clock,
                lastSeqno := nextOddVal (s.lastSeqno + min (2 ^ 31 - 1) (s.seqnoIncrement * 2)),
                seqnoIncrement := min (2 ^ 31 - 1) (s.seqnoIncrement * 2) + 1,
                mtproto := some { t with
                    nextMsgId := t.nextMsgId + 1,
                    writes := t.writes ++
                      [⟨nextOddVal (s.lastSeqno + min (2 ^ 31 - 1) (s.seqnoIncrement * 2)),
                        reqCons pr.request, []⟩] },
                pendingRequests := setA (delA s.pendingRequests bmid) t.nextMsgId pr,
                scheduledRequestDeletions := s.scheduledRequestDeletions ++ [t.nextMsgId] },
       true) := by
  have hmax : max s.lastSeqno 0 = s.lastSeqno := max_eq_left h0
  simp only [processTelegramMessage, unwrapGzip, hmax]
  simp only [processTelegramMessageBody, hstable, Bool.not_false, Bool.and_true, beq_self_eq_true,
    if_true, processBadMsgSeqnoTooLow, hp]
  rw [rpcCallSend_gated_eq _ t pr true]
  · simp [acknowledgeTelegramMessage]
  · exact hm
  · exact htask
  · simp

/-- **C2 (counterexample)**: from the claim's premise state
(`stable_seqno = false`, `seqno_increment = 1`, the request pending under
msg id 100), after a second consecutive error-32 notification — naming the
re-sent request's msg id 50, with the re-send in between — `_seqno_increment`
is not 4 (it is 7: each notification doubles it, and each re-send through
`_rpc_call` additionally increments it by one: 1 → 2 → 3 → 6 → 7). -/
theorem c2_counterexample :
    (processTelegramMessage
        (processTelegramMessage recoveryDemoState 200 0 (.badMsgNotification 100 32)).1
        201 0 (.badMsgNotification 50 32)).1.seqnoIncrement ≠ 4 := by
  have e1 : processTelegramMessage recoveryDemoState 200 0 (.badMsgNotification 100 32)
      = (c2MidState, true) := by
    rw [processTelegramMessage_badMsg32_eq recoveryDemoState ⟨7, 50, []⟩
        ⟨[("_cons", "help.getConfig")], 0⟩ 100 200 rfl rfl rfl rfl (by decide)]
    rfl
  rw [e1]
  rw [processTelegramMessage_badMsg32_eq c2MidState ⟨7, 51, [⟨5, "help.getConfig", []⟩]⟩
      ⟨[("_cons", "help.getConfig")], 0⟩ 50 201 rfl rfl rfl rfl (by decide)]
  decide

/-- **C2 (amended)**: from any state with a live loop, `stable_seqno =
false`, `seqno_increment = 1` and the pending request registered under msg
id 100, processing a first error-32 `bad_msg_notification` sets
`seqno_increment` to `min(2^31 - 1, 1 << 1) = 2`, advances `last_seqno` by
exactly 2 (before the re-send allocates its own odd seqno), and re-sends
the pending request under the transport's next msg id; the re-send itself
increments `seqno_increment` once more (the send path always does), so
after the first notification it is 3, and after a second consecutive
error-32 notification naming the re-sent msg id it is
`min(2^31 - 1, 3 << 1) + 1 = 7`, not 4. -/
theorem c2_error32_doubles_then_send_bumps (s : ClientState) (t : MTProtoTransport)
    (pr : PendingRequest) (mid1 mid2 : Nat)
    (hm : s.mtproto = some t) (htask : s.mtprotoLoopTask = some false)
    (hstable : s.stableSeqno = false) (hinc : s.seqnoIncrement = 1)
    (hp : getA s.pendingRequests 100 = some pr) (h0 : 0 ≤ s.lastSeqno) :
    (processTelegramMessage s mid1 0 (.badMsgNotification 100 32)).1.seqnoIncrement = 3
    ∧ (processTelegramMessage s mid1 0 (.badMsgNotification 100 32)).1.lastSeqno
        = nextOddVal (s.lastSeqno + 2)
    ∧ getA (processTelegramMessage s mid1 0 (.badMsgNotification 100 32)).1.pendingRequests
        t.nextMsgId = some pr
    ∧ (processTelegramMessage (processTelegramMessage s mid1 0 (.badMsgNotification 100 32)).1
         mid2 0 (.badMsgNotification t.nextMsgId 32)).1.seqnoIncrement = 7
    ∧ (processTelegramMessage (processTelegramMessage s mid1 0 (.badMsgNotification 100 32)).1
         mid2 0 (.badMsgNotification t.nextMsgId 32)).1.lastSeqno
        = nextOddVal (nextOddVal (s.lastSeqno + 2) + 6) := by
  have e1 := processTelegramMessage_badMsg32_eq s t pr 100 mid1 hm htask hstable hp h0
  rw [hinc] at e1
  have hmin1 : min ((2 : Int) ^ 31 - 1) (1 * 2) = 2 := by norm_num
  rw [hmin1] at e1
  have hm1 : (processTelegramMessage s mid1 0 (.badMsgNotification 100 32)).1.mtproto
      = some { t with nextMsgId := t.nextMsgId + 1,
                      writes := t.writes ++ [⟨nextOddVal (s.lastSeqno + 2), reqCons pr.request, []⟩] } := by
    rw [e1]
  have htask1 : (processTelegramMessage s mid1 0 (.badMsgNotification 100 32)).1.mtprotoLoopTask
      = some false := by
    rw [e1]; exact htask
  have hstable1 : (processTelegramMessage s mid1 0 (.badMsgNotification 100 32)).1.stableSeqno
      = false := by
    rw [e1]; exact hstable
  have hp1 : getA (processTelegramMessage s mid1 0 (.badMsgNotification 100 32)).1.pendingRequests
      t.nextMsgId = some pr := by
    rw [e1]; exact getA_setA_self _ _ _
  have h01 : 0 ≤ (processTelegramMessage s mid1 0 (.badMsgNotification 100 32)).1.lastSeqno := by
    rw [e1]
    show 0 ≤ nextOddVal (s.lastSeqno + 2)
    have hlt := lt_nextOddVal (s.lastSeqno + 2)
    omega
  have e2 := processTelegramMessage_badMsg32_eq _ _ pr t.nextMsgId mid2 hm1 htask1 hstable1 hp1 h01
  refine ⟨?_, ?_, hp1, ?_, ?_⟩
  · rw [e1]
    norm_num
  · rw [e1]
  · rw [e2]
    show min ((2 : Int) ^ 31 - 1)
        ((processTelegramMessage s mid1 0 (.badMsgNotification 100 32)).1.seqnoIncrement * 2) + 1 = 7
    rw [e1]
    norm_num
  · rw [e2]
    show nextOddVal ((processTelegramMessage s mid1 0 (.badMsgNotification 100 32)).1.lastSeqno
        + min ((2 : Int) ^ 31 - 1)
            ((processTelegramMessage s mid1 0 (.badMsgNotification 100 32)).1.seqnoIncrement * 2))
      = nextOddVal (nextOddVal (s.lastSeqno + 2) + 6)
    rw [e1]
    norm_num

theorem deletePendingRequest_shape_false (s : ClientState) (mid : Nat) :
    ∃ sl, deletePendingRequest s mid false = { s with slots := sl } := by
  unfold deletePendingRequest
  cases getA s.pendingRequests mid with
  | none => exact ⟨s.slots, rfl⟩
  | some pr =>
    by_cases hd : (s.slots pr.slot).isDone = true
    · exact ⟨s.slots, by simp [hd]⟩
    · exact ⟨fun n => if n = pr.slot then SlotState.errInterrupted else s.slots n,
        by simp [hd]⟩

theorem foldlDelete_shape (l : List (Nat × PendingRequest)) (s : ClientState) :
    ∃ sl, l.foldl (fun acc p => deletePendingRequest acc p.1 false) s
      = { s with slots := sl } := by
  induction l generalizing s with
  | nil => exact ⟨s.slots, rfl⟩
  | cons p rest ih =>
    obtain ⟨sl1, h1⟩ := deletePendingRequest_shape_false s p.1
    obtain ⟨sl2, h2⟩ := ih (deletePendingRequest s p.1 false)
    refine ⟨sl2, ?_⟩
    rw [List.foldl_cons, h2, h1]

theorem disconnect_shape (s : ClientState) :
    ∃ sl, disconnect s = { s with pendingPongs := [], pendingRequests := [],
                                  pendingPingRequest := false, mtproto := none,
                                  mtprotoLoopTask := none, slots := sl } := by
  obtain ⟨sl, h⟩ := foldlDelete_shape s.pendingRequests (deleteAllPendingPongs s)
  refine ⟨sl, ?_⟩
  unfold disconnect deleteAllPendingData deleteAllPendingRequests
  rw [show (deleteAllPendingPongs s).pendingRequests = s.pendingRequests from rfl, h]
  rfl

theorem getA_self_of_nodupKeys (l : List (Nat × PendingRequest))
    (hnd : l.Pairwise (fun a b => a.1 ≠ b.1)) :
    ∀ p ∈ l, getA l p.1 = some p.2 := by
  induction l with
  | nil => intro p hp; cases hp
  | cons q rest ih =>
    intro p hp
    rcases List.mem_cons.mp hp with hq | hr
    · subst hq
      simp [getA]
    · have hne : q.1 ≠ p.1 := (List.pairwise_cons.mp hnd).1 p hr
      have := ih (List.pairwise_cons.mp hnd).2 p hr
      simpa [getA, List.find?_cons, hne] using this

theorem deletePendingRequest_resolves (s : ClientState) (mid : Nat) (pr : PendingRequest)
    (h : getA s.pendingRequests mid = some pr) :
    (((deletePendingRequest s mid false).slots pr.slot).isDone) = true := by
  unfold deletePendingRequest
  rw [h]
  cases hx : s.slots pr.slot <;> simp [hx, SlotState.isDone]

theorem deletePendingRequest_done_mono (s : ClientState) (mid : Nat) (rm : Bool) (n : Nat)
    (h : ((s.slots n).isDone) = true) :
    (((deletePendingRequest s mid rm).slots n).isDone) = true := by
  unfold deletePendingRequest
  cases getA s.pendingRequests mid with
  | none => exact h
  | some pr =>
    cases hx : s.slots pr.slot <;>
      cases rm <;>
        by_cases hn : n = pr.slot <;>
          simp_all [SlotState.isDone]

theorem deletePendingRequest_registry_false (s : ClientState) (mid : Nat) :
    (deletePendingRequest s mid false).pendingRequests = s.pendingRequests := by
  obtain ⟨sl, h⟩ := deletePendingRequest_shape_false s mid
  rw [h]

theorem foldlDelete_done_mono (l : List (Nat × PendingRequest)) (s : ClientState) (n : Nat)
    (h : ((s.slots n).isDone) = true) :
    (((l.foldl (fun acc p => deletePendingRequest acc p.1 false) s).slots n).isDone) = true := by
  induction l generalizing s with
  | nil => exact h
  | cons p rest ih =>
    rw [List.foldl_cons]
    exact ih _ (deletePendingRequest_done_mono s p.1 false n h)

theorem foldlDelete_resolves (l : List (Nat × PendingRequest)) (s : ClientState)
    (hl : ∀ p ∈ l, getA s.pendingRequests p.1 = some p.2) :
    ∀ p ∈ l, (((l.foldl (fun acc p => deletePendingRequest acc p.1 false) s).slots
        p.2.slot).isDone) = true := by
  induction l generalizing s with
  | nil => intro p hp; cases hp
  | cons q rest ih =>
    intro p hp
    rw [List.foldl_cons]
    rcases List.mem_cons.mp hp with hq | hr
    · subst hq
      exact foldlDelete_done_mono rest _ _
        (deletePendingRequest_resolves s p.1 p.2 (hl p hp))
    · have hl' : ∀ r ∈ rest,
          getA (deletePendingRequest s q.1 false).pendingRequests r.1 = some r.2 := by
        intro r hrr
        rw [deletePendingRequest_registry_false]
        exact hl r (List.mem_cons_of_mem q hrr)
      exact ih _ hl' p hr

theorem deletePendingRequest_interrupts (s : ClientState) (mid : Nat) (pr : PendingRequest)
    (h : getA s.pendingRequests mid = some pr) (hnd : ((s.slots pr.slot).isDone) = false) :
    (deletePendingRequest s mid false).slots pr.slot = SlotState.errInterrupted := by
  unfold deletePendingRequest
  rw [h]
  simp [hnd]

theorem deletePendingRequest_interrupted_mono (s : ClientState) (mid : Nat) (rm : Bool)
    (n : Nat) (h : s.slots n = SlotState.errInterrupted) :
    (deletePendingRequest s mid rm).slots n = SlotState.errInterrupted := by
  unfold deletePendingRequest
  cases getA s.pendingRequests mid with
  | none => exact h
  | some pr =>
    cases hx : s.slots pr.slot <;>
      cases rm <;>
        by_cases hn : n = pr.slot <;>
          simp_all [SlotState.isDone]

theorem foldlDelete_interrupted_mono (l : List (Nat × PendingRequest)) (s : ClientState)
    (n : Nat) (h : s.slots n = SlotState.errInterrupted) :
    (l.foldl (fun acc p => deletePendingRequest acc p.1 false) s).slots n
      = SlotState.errInterrupted := by
  induction l generalizing s with
  | nil => exact h
  | cons p rest ih =>
    rw [List.foldl_cons]
    exact ih _ (deletePendingRequest_interrupted_mono s p.1 false n h)

theorem deletePendingRequest_newly_done (s : ClientState) (mid n : Nat)
    (h0 : ((s.slots n).isDone) = false)
    (h1 : (((deletePendingRequest s mid false).slots n).isDone) = true) :
    (deletePendingRequest s mid false).slots n = SlotState.errInterrupted := by
  unfold deletePendingRequest at h1 ⊢
  cases hA : getA s.pendingRequests mid with
  | none => simp_all
  | some pr =>
    by_cases hn : n = pr.slot <;>
      by_cases hd : (s.slots pr.slot).isDone = true <;>
        simp_all [SlotState.isDone]

theorem foldlDelete_interrupts (l : List (Nat × PendingRequest)) (s : ClientState)
    (hl : ∀ p ∈ l, getA s.pendingRequests p.1 = some p.2) :
    ∀ p ∈ l, ((s.slots p.2.slot).isDone) = false →
      (l.foldl (fun acc p => deletePendingRequest acc p.1 false) s).slots p.2.slot
        = SlotState.errInterrupted := by
  induction l generalizing s with
  | nil => intro p hp; cases hp
  | cons q rest ih =>
    intro p hp hund
    rw [List.foldl_cons]
    rcases List.mem_cons.mp hp with hq | hr
    · subst hq
      exact foldlDelete_interrupted_mono rest _ _
        (deletePendingRequest_interrupts s p.1 p.2 (hl p hp) hund)
    · have hl' : ∀ r ∈ rest,
          getA (deletePendingRequest s q.1 false).pendingRequests r.1 = some r.2 := by
        intro r hrr
        rw [deletePendingRequest_registry_false]
        exact hl r (List.mem_cons_of_mem q hrr)
      by_cases hd : (((deletePendingRequest s q.1 false).slots p.2.slot).isDone) = true
      · exact foldlDelete_interrupted_mono rest _ _
          (deletePendingRequest_newly_done s q.1 p.2.slot hund hd)
      · rw [Bool.not_eq_true] at hd
        exact ih _ hl' p hr hd

theorem setSlotResult_ackEventLog (s : ClientState) (i : Nat) (v : SlotState) :
    (setSlotResult s i v).1.ackEventLog = s.ackEventLog := by
  unfold setSlotResult
  split <;> rfl

theorem deletePendingPong_ackEventLog (s : ClientState) (pid : Int) (rm : Bool) :
    (deletePendingPong s pid rm).ackEventLog = s.ackEventLog := by
  unfold deletePendingPong
  split
  · split <;> rfl
  · rfl

theorem deletePendingRequest_ackEventLog (s : ClientState) (mid : Nat) (rm : Bool) :
    (deletePendingRequest s mid rm).ackEventLog = s.ackEventLog := by
  unfold deletePendingRequest
  cases getA s.pendingRequests mid with
  | none => rfl
  | some pr =>
    cases rm <;> by_cases hd : (s.slots pr.slot).isDone = true <;> simp [hd]

theorem flushMsgidsToAck_ackEventLog (s : ClientState) :
    (flushMsgidsToAck s).1.ackEventLog = s.ackEventLog := by
  simp only [flushMsgidsToAck]
  split
  · rfl
  · cases h : s.mtproto <;> simp [h, getNextEvenSeqno]

theorem createNewPingRequest_ackEventLog (s : ClientState) :
    (createNewPingRequest s).ackEventLog = s.ackEventLog := by
  unfold createNewPingRequest
  cases h : s.mtproto <;> simp [h, getNextOddSeqno]

theorem deleteAllPendingData_ackEventLog (s : ClientState) :
    (deleteAllPendingData s).ackEventLog = s.ackEventLog := by
  obtain ⟨sl, h⟩ := foldlDelete_shape s.pendingRequests (deleteAllPendingPongs s)
  unfold deleteAllPendingData deleteAllPendingRequests
  rw [show (deleteAllPendingPongs s).pendingRequests = s.pendingRequests from rfl, h]
  rfl

theorem startMtprotoLoop_ackEventLog (s : ClientState) :
    (startMtprotoLoop s).ackEventLog = s.ackEventLog := by
  unfold startMtprotoLoop
  rw [createNewPingRequest_ackEventLog]
  exact deleteAllPendingData_ackEventLog s

theorem rpcCallSend_ackEventLog (s : ClientState) (pr : PendingRequest) (nr : Bool) :
    (rpcCallSend s pr nr).1.ackEventLog = s.ackEventLog := by
  unfold rpcCallSend
  set s1 := if s.mtproto.isNone || s.mtprotoLoopTask.getD true then startMtprotoLoop s else s with hs1
  have h1 : s1.ackEventLog = s.ackEventLog := by
    rw [hs1]
    split
    · exact startMtprotoLoop_ackEventLog s
    · rfl
  have hfl : (flushMsgidsToAck s1).1.ackEventLog = s.ackEventLog :=
    (flushMsgidsToAck_ackEventLog s1).trans h1
  cases hf : (flushMsgidsToAck s1).2
  · simp only [hf, Bool.not_false, if_true]
    exact hfl
  · simp only [hf, Bool.not_true, Bool.false_eq_true, if_false]
    cases hmm : (getNextOddSeqno (flushMsgidsToAck s1).1).1.mtproto with
    | none => exact hfl
    | some t => cases nr <;> simpa [getNextOddSeqno] using hfl

theorem processRpcResult_ackEventLog (s : ClientState) (r : Nat) (res : RpcRes) :
    (processRpcResult s r res).1.ackEventLog = s.ackEventLog := by
  simp only [processRpcResult]
  cases hA : getA s.pendingRequests r with
  | none => simp [hA]
  | some pr => simp [hA, setSlotResult_ackEventLog]

theorem processPong_ackEventLog (s : ClientState) (pid : Int) (mid : Nat) :
    (processPong s pid mid).1.ackEventLog = s.ackEventLog := by
  unfold processPong
  cases hA : getA (deletePendingPong s pid true).pendingRequests mid with
  | none => simp [hA, deletePendingPong_ackEventLog]
  | some pr =>
    simp only [hA]
    cases h2 : (setSlotResult (deletePendingPong s pid true) pr.slot .resultEmpty).2 <;>
      simp [h2, setSlotResult_ackEventLog, deletePendingPong_ackEventLog]

theorem processBadServerSalt_ackEventLog (s : ClientState) (bmid : Nat) (salt : Int) :
    (processBadServerSalt s bmid salt).1.ackEventLog = s.ackEventLog := by
  unfold processBadServerSalt
  cases hm : s.mtproto with
  | none => rfl
  | some t =>
    cases hc : (t.getServerSalt != 0) <;>
      · simp only [hc, Bool.false_eq_true, if_false, if_true]
        cases hA : getA s.pendingRequests bmid <;>
          simp [hA, rpcCallSend_ackEventLog]

theorem processBadMsgSeqnoTooLow_ackEventLog (s : ClientState) (bmid : Nat) :
    (processBadMsgSeqnoTooLow s bmid).1.ackEventLog = s.ackEventLog := by
  unfold processBadMsgSeqnoTooLow
  cases hA : getA s.pendingRequests bmid <;>
    simp [hA, rpcCallSend_ackEventLog]

theorem processTelegramMessageBody_ackEventLog (s : ClientState) (b : Body) :
    (processTelegramMessageBody s b).1.ackEventLog = s.ackEventLog := by
  cases b with
  | rpcResult r res => exact processRpcResult_ackEventLog s r res
  | pong pid mid => exact processPong_ackEventLog s pid mid
  | badServerSalt bmid salt => exact processBadServerSalt_ackEventLog s bmid salt
  | badMsgNotification bmid ec =>
    simp only [processTelegramMessageBody]
    split
    · exact processBadMsgSeqnoTooLow_ackEventLog s bmid
    · rfl
  | gzipPacked inner => rfl
  | msgContainer ms => rfl
  | other => rfl

theorem acknowledgeTelegramMessage_ackEventLog (s : ClientState) (mid : Nat) (sq : Int) :
    (acknowledgeTelegramMessage s mid sq).1.ackEventLog
      = s.ackEventLog ++ (if (sq % 2 == 1) = true then [mid] else []) := by
  unfold acknowledgeTelegramMessage
  by_cases h : (sq % 2 == 1) = true
  · simp only [h, if_true]
    rw [flushMsgidsToAck_ackEventLog]
  · simp only [h, if_false]
    simp only [Bool.not_eq_true] at h
    simp [h]

theorem processTelegramMessage_eq_container (s : ClientState) (msgId : Nat) (seqno : Int)
    (b : Body) (msgs : List (Nat × Int × Body)) (hb : unwrapGzip b = .msgContainer msgs) :
    processTelegramMessage s msgId seqno b
      = processContainerMessages { s with lastSeqno := max s.lastSeqno seqno } msgs := by
  rw [processTelegramMessage.eq_def]
  split
  · rename_i msgs2 hb2
    rw [hb] at hb2
    cases hb2
    rfl
  · rename_i hne
    exact absurd hb (hne msgs)

theorem processTelegramMessage_eq_noncontainer (s : ClientState) (msgId : Nat) (seqno : Int)
    (b : Body) (hnc : ∀ msgs, unwrapGzip b ≠ Body.msgContainer msgs) :
    processTelegramMessage s msgId seqno b
      = (if (processTelegramMessageBody { s with lastSeqno := max s.lastSeqno seqno }
              (unwrapGzip b)).2 = true
         then acknowledgeTelegramMessage
                (processTelegramMessageBody { s with lastSeqno := max s.lastSeqno seqno }
                  (unwrapGzip b)).1 msgId seqno
         else processTelegramMessageBody { s with lastSeqno := max s.lastSeqno seqno }
                (unwrapGzip b)) := by
  rw [processTelegramMessage.eq_def]
  split
  · rename_i msgs2 hb2
    exact absurd hb2 (hnc msgs2)
  · rfl

theorem processContainerMessages_nil (s : ClientState) :
    processContainerMessages s [] = (s, true) := by
  rw [processContainerMessages.eq_def]

theorem processContainerMessages_cons (s : ClientState) (mid : Nat) (sq : Int) (b : Body)
    (rest : List (Nat × Int × Body)) :
    processContainerMessages s ((mid, sq, b) :: rest)
      = (if (processTelegramMessage s mid sq b).2 = true
         then processContainerMessages (processTelegramMessage s mid sq b).1 rest
         else processTelegramMessage s mid sq b) := by
  rw [processContainerMessages.eq_def]

theorem eligibleAckIds_eq_container (msgId : Nat) (seqno : Int) (b : Body)
    (msgs : List (Nat × Int × Body)) (hb : unwrapGzip b = .msgContainer msgs) :
    eligibleAckIds msgId seqno b = eligibleAckIdsList msgs := by
  rw [eligibleAckIds.eq_def]
  split
  · rename_i msgs2 hb2
    rw [hb] at hb2
    cases hb2
    rfl
  · rename_i hne
    exact absurd hb (hne msgs)

theorem eligibleAckIds_eq_noncontainer (msgId : Nat) (seqno : Int) (b : Body)
    (hnc : ∀ msgs, unwrapGzip b ≠ Body.msgContainer msgs) :
    eligibleAckIds msgId seqno b = (if (seqno % 2 == 1) = true then [msgId] else []) := by
  rw [eligibleAckIds.eq_def]
  split
  · rename_i msgs2 hb2
    exact absurd hb2 (hnc msgs2)
  · rfl

theorem eligibleAckIdsList_cons (mid : Nat) (sq : Int) (b : Body)
    (rest : List (Nat × Int × Body)) :
    eligibleAckIdsList ((mid, sq, b) :: rest)
      = eligibleAckIds mid sq b ++ eligibleAckIdsList rest := by
  rw [eligibleAckIdsList.eq_def]

/-- **C6**: for every decoded server message dispatched by the inbound
dispatcher whose processing completes without a raised exception, the ghost
history of appends to `_msgids_to_ack` grows by exactly the ids the spec's
acknowledgment rule selects: a non-container body is enqueued iff the
carrying message's seqno is odd, container wrappers are never enqueued, and
each inner message of a container is dispatched recursively under the same
rule. -/
theorem c6_ack_enqueued_iff_odd_noncontainer :
    ∀ (s : ClientState) (msgId : Nat) (seqno : Int) (b : Body),
      (processTelegramMessage s msgId seqno b).2 = true →
      (processTelegramMessage s msgId seqno b).1.ackEventLog
        = s.ackEventLog ++ eligibleAckIds msgId seqno b := by
  refine processTelegramMessage.induct
    (fun s msgId seqno b =>
      (processTelegramMessage s msgId seqno b).2 = true →
      (processTelegramMessage s msgId seqno b).1.ackEventLog
        = s.ackEventLog ++ eligibleAckIds msgId seqno b)
    (fun s ms =>
      (processContainerMessages s ms).2 = true →
      (processContainerMessages s ms).1.ackEventLog
        = s.ackEventLog ++ eligibleAckIdsList ms)
    ?_ ?_ ?_ ?_ ?_ ?_
  · intro s msgId seqno b s1 msgs hb ih hok
    rw [processTelegramMessage_eq_container s msgId seqno b msgs hb] at hok ⊢
    rw [eligibleAckIds_eq_container msgId seqno b msgs hb]
    exact ih hok
  · intro s msgId seqno b s1 hnc r hr2 hok
    have hnc' : ∀ msgs, unwrapGzip b ≠ Body.msgContainer msgs := fun msgs h => hnc msgs h
    rw [processTelegramMessage_eq_noncontainer s msgId seqno b hnc'] at hok ⊢
    rw [eligibleAckIds_eq_noncontainer msgId seqno b hnc']
    cases hP : (processTelegramMessageBody { s with lastSeqno := max s.lastSeqno seqno }
        (unwrapGzip b)).2 with
    | false =>
      rw [hP] at hok
      simp [hP] at hok
    | true =>
      simp only [hP, if_true]
      rw [acknowledgeTelegramMessage_ackEventLog, processTelegramMessageBody_ackEventLog]
  · intro s msgId seqno b s1 hnc r hnr hok
    have hnc' : ∀ msgs, unwrapGzip b ≠ Body.msgContainer msgs := fun msgs h => hnc msgs h
    rw [processTelegramMessage_eq_noncontainer s msgId seqno b hnc'] at hok
    cases hP : (processTelegramMessageBody { s with lastSeqno := max s.lastSeqno seqno }
        (unwrapGzip b)).2 with
    | true => exact absurd hP hnr
    | false =>
      rw [hP] at hok
      simp [hP] at hok
  · intro s hok
    rw [processContainerMessages_nil]
    simp [eligibleAckIdsList]
  · intro s mid sq b rest r hr2 ih1 ih2 hok
    rw [processContainerMessages_cons] at hok ⊢
    rw [eligibleAckIdsList_cons]
    rw [hr2] at hok ⊢
    simp only [if_true] at hok ⊢
    rw [ih2 hok, ih1 hr2, List.append_assoc]
  · intro s mid sq b rest r hnr ih1 hok
    rw [processContainerMessages_cons] at hok
    cases hP : (processTelegramMessage s mid sq b).2 with
    | true => exact absurd hP hnr
    | false =>
      rw [hP] at hok
      simp [hP] at hok

/-- Witness for C6 at a concrete input: a container with one odd-seqno and
one even-seqno inner message processed from the initial state — only the
odd inner message is enqueued; neither the container itself nor the even
message is. -/
theorem c6_witness :
    (processTelegramMessage (initialClientState 0 []) 5 0
        (.msgContainer [(11, 1, .other), (12, 2, .other)])).2 = true
    ∧ (processTelegramMessage (initialClientState 0 []) 5 0
        (.msgContainer [(11, 1, .other), (12, 2, .other)])).1.ackEventLog
      = (initialClientState 0 []).ackEventLog
          ++ eligibleAckIds 5 0 (.msgContainer [(11, 1, .other), (12, 2, .other)]) := by
  have hok : (processTelegramMessage (initialClientState 0 []) 5 0
      (.msgContainer [(11, 1, .other), (12, 2, .other)])).2 = true := by
    simp [processTelegramMessage_eq_container, processTelegramMessage_eq_noncontainer,
      processContainerMessages_cons, processContainerMessages_nil,
      processTelegramMessageBody, acknowledgeTelegramMessage, flushMsgidsToAck,
      unwrapGzip, getNextEvenSeqno, initialClientState]
  exact ⟨hok, c6_ack_enqueued_iff_odd_noncontainer _ _ _ _ hok⟩

/-- **C8**: from any session state whose registry has distinct msg-id keys
(every Python dict does), `disconnect()` is idempotent — a second call
leaves the state exactly as the first did and raises nothing (the model
function is total) — and after one call the transport handle and loop task
are cleared, the pending pongs, pending requests and next-ping timer are
removed, and every registered response slot is resolved; in particular
every registered slot that was not yet resolved before the call is
fulfilled with the interruption error (`InterruptedError`, the model's
`SlotState.errInterrupted`). -/
theorem c8_disconnect_idempotent (s : ClientState)
    (hnd : s.pendingRequests.Pairwise (fun a b => a.1 ≠ b.1)) :
    disconnect (disconnect s) = disconnect s
    ∧ (disconnect s).mtproto = none
    ∧ (disconnect s).mtprotoLoopTask = none
    ∧ (disconnect s).pendingPongs = []
    ∧ (disconnect s).pendingRequests = []
    ∧ (disconnect s).pendingPingRequest = false
    ∧ (∀ p ∈ s.pendingRequests, (((disconnect s).slots p.2.slot).isDone) = true)
    ∧ ∀ p ∈ s.pendingRequests, ((s.slots p.2.slot).isDone) = false →
        (disconnect s).slots p.2.slot = SlotState.errInterrupted := by
  obtain ⟨sl, hd⟩ := disconnect_shape s
  refine ⟨?_, by rw [hd], by rw [hd], by rw [hd], by rw [hd], by rw [hd], ?_, ?_⟩
  · rw [hd]
    rfl
  · intro p hp
    have hres := foldlDelete_resolves s.pendingRequests (deleteAllPendingPongs s)
      (fun q hq => getA_self_of_nodupKeys s.pendingRequests hnd q hq) p hp
    show ((disconnect s).slots p.2.slot).isDone = true
    unfold disconnect deleteAllPendingData deleteAllPendingRequests
    exact hres
  · intro p hp hund
    have hres := foldlDelete_interrupts s.pendingRequests (deleteAllPendingPongs s)
      (fun q hq => getA_self_of_nodupKeys s.pendingRequests hnd q hq) p hp hund
    show (disconnect s).slots p.2.slot = SlotState.errInterrupted
    unfold disconnect deleteAllPendingData deleteAllPendingRequests
    exact hres

/-- Witness for C8 at a concrete input: a connected state with one pending
request (slot 0, unresolved) and one pending pong — after `disconnect` the
slot is resolved with the interruption error, and a second `disconnect` is
the identity on the result. -/
theorem c8_witness :
    disconnect (disconnect recoveryDemoState) = disconnect recoveryDemoState
    ∧ (((disconnect recoveryDemoState).slots 0).isDone) = true
    ∧ (disconnect recoveryDemoState).slots 0 = SlotState.errInterrupted := by
  obtain ⟨h1, _, _, _, _, _, h7, h8⟩ :=
    c8_disconnect_idempotent recoveryDemoState (by simp [recoveryDemoState])
  refine ⟨h1, h7 (100, ⟨[("_cons", "help.getConfig")], 0⟩) (by simp [recoveryDemoState]), ?_⟩
  exact h8 (100, ⟨[("_cons", "help.getConfig")], 0⟩) (by simp [recoveryDemoState]) (by rfl)

theorem flushMsgidsToAck_stable (s : ClientState) :
    (flushMsgidsToAck s).1.stableSeqno = s.stableSeqno := by
  simp only [flushMsgidsToAck]
  split
  · rfl
  · cases h : s.mtproto <;> simp [h, getNextEvenSeqno]

theorem flush_empty_of_stable (s : ClientState)
    (hok : (flushMsgidsToAck s).2 = true)
    (hst : (flushMsgidsToAck s).1.stableSeqno = true) :
    (flushMsgidsToAck s).1.msgidsToAck = [] := by
  have hst' : s.stableSeqno = true := by rw [← flushMsgidsToAck_stable s]; exact hst
  cases he : s.msgidsToAck.isEmpty
  · cases hm : s.mtproto
    · simp [flushMsgidsToAck, hst', he, hm] at hok
    · simp [flushMsgidsToAck, hst', he, hm, getNextEvenSeqno]
  · have : s.msgidsToAck = [] := by
      cases hl : s.msgidsToAck
      · rfl
      · rw [hl] at he; simp at he
    simp [flushMsgidsToAck, hst', he, this]

theorem mtprotoLoopStep_other_odd (s : ClientState) (mid : Nat)
    (hstable : s.stableSeqno = false) :
    mtprotoLoopStep s mid 1 Body.other
      = { s with lastTimeAcksFlushed := s.clock,
                 lastSeqno := max s.lastSeqno 1,
                 msgidsToAck := s.msgidsToAck ++ [mid],
                 ackEventLog := s.ackEventLog ++ [mid] } := by
  have hnc : ∀ msgs, unwrapGzip Body.other ≠ Body.msgContainer msgs := by
    intro msgs h
    simp [unwrapGzip] at h
  have hstep : acknowledgeTelegramMessage { s with lastSeqno := max s.lastSeqno 1 } mid 1
      = ({ s with lastTimeAcksFlushed := s.clock,
                  lastSeqno := max s.lastSeqno 1,
                  msgidsToAck := s.msgidsToAck ++ [mid],
                  ackEventLog := s.ackEventLog ++ [mid] }, true) := by
    unfold acknowledgeTelegramMessage
    rw [if_pos (by norm_num)]
    rw [flush_gated_eq _ (by simp [hstable])]
  unfold mtprotoLoopStep
  rw [processTelegramMessage_eq_noncontainer s mid 1 Body.other hnc]
  simp only [processTelegramMessageBody, unwrapGzip, if_true]
  rw [hstep]
  simp only [if_true]
  unfold flushMsgidsToAckIfNeeded
  rw [show flushMsgidsToAck
        { s with lastTimeAcksFlushed := s.clock,
                 lastSeqno := max s.lastSeqno 1,
                 msgidsToAck := s.msgidsToAck ++ [mid],
                 ackEventLog := s.ackEventLog ++ [mid] }
      = ({ s with lastTimeAcksFlushed := s.clock,
                  lastSeqno := max s.lastSeqno 1,
                  msgidsToAck := s.msgidsToAck ++ [mid],
                  ackEventLog := s.ackEventLog ++ [mid] }, true)
    from flush_gated_eq _ (by simp [hstable])]
  simp [ite_self]

theorem c10_fold_grows (mids : List Nat) (s : ClientState) (hstable : s.stableSeqno = false) :
    (mids.foldl (fun st mid => mtprotoLoopStep st mid 1 Body.other) s).stableSeqno = false
    ∧ (mids.foldl (fun st mid => mtprotoLoopStep st mid 1 Body.other) s).msgidsToAck.length
        = s.msgidsToAck.length + mids.length := by
  induction mids generalizing s with
  | nil => exact ⟨hstable, rfl⟩
  | cons mid rest ih =>
    rw [List.foldl_cons, mtprotoLoopStep_other_odd s mid hstable]
    obtain ⟨h1, h2⟩ := ih
      { s with lastTimeAcksFlushed := s.clock,
               lastSeqno := max s.lastSeqno 1,
               msgidsToAck := s.msgidsToAck ++ [mid],
               ackEventLog := s.ackEventLog ++ [mid] } hstable
    refine ⟨h1, ?_⟩
    rw [h2]
    simp
    omega

/-- Equation for `_process_rpc_result` on an unregistered `req_msg_id`:
only `_stable_seqno` changes (set to true). -/
theorem processRpcResult_unknown_eq (s : ClientState) (req : Nat) (res : RpcRes)
    (h : getA s.pendingRequests req = none) :
    processRpcResult s req res = ({ s with stableSeqno := true }, true) := by
  simp [processRpcResult, h]

/-- **C10 (counterexample)**: a reachable state in which the ack buffer
holds 35 ≥ 32 entries while `_stable_seqno` is true, refuting "the 32-entry
size threshold can only ever be reached while stable_seqno is false": 35
odd unknown-constructor messages accumulate while `_stable_seqno` is false
(every post-append flush is gated), then a single even-seqno `rpc_result`
(unknown `req_msg_id`) sets `_stable_seqno` true without any flush — this
is the state the loop holds between `_process_telegram_message` and
`_flush_msgids_to_ack_if_needed`, where the size threshold is then checked
with `_stable_seqno` already true. -/
theorem c10_counterexample :
    (processTelegramMessage c10GrownState 999 0 (.rpcResult 555 (.plain 1))).1.stableSeqno = true
    ∧ 32 ≤ (processTelegramMessage c10GrownState 999 0
        (.rpcResult 555 (.plain 1))).1.msgidsToAck.length := by
  have hnc : ∀ msgs, unwrapGzip (Body.rpcResult 555 (.plain 1)) ≠ Body.msgContainer msgs := by
    intro msgs h
    simp [unwrapGzip] at h
  have aux : ∀ (mids : List Nat) (s : ClientState), s.stableSeqno = false →
      (mids.foldl (fun st mid => mtprotoLoopStep st mid 1 Body.other) s).pendingRequests
        = s.pendingRequests := by
    intro mids
    induction mids with
    | nil => intro s _; rfl
    | cons mid rest ihm =>
      intro s hs
      rw [List.foldl_cons, mtprotoLoopStep_other_odd s mid hs]
      exact ihm _ hs
  have hpend : getA ({ c10GrownState with
      lastSeqno := max c10GrownState.lastSeqno 0 } : ClientState).pendingRequests 555 = none := by
    show getA c10GrownState.pendingRequests 555 = none
    unfold c10GrownState
    rw [aux (List.range 35) c10StartState rfl]
    rfl
  rw [processTelegramMessage_eq_noncontainer _ 999 0 _ hnc]
  simp only [unwrapGzip]
  rw [show processTelegramMessageBody
        { c10GrownState with lastSeqno := max c10GrownState.lastSeqno 0 }
        (Body.rpcResult 555 (.plain 1))
      = ({ c10GrownState with lastSeqno := max c10GrownState.lastSeqno 0,
                               stableSeqno := true }, true) from by
    simp only [processTelegramMessageBody]
    exact processRpcResult_unknown_eq _ 555 (.plain 1) hpend]
  simp only [if_true]
  rw [show acknowledgeTelegramMessage
        { c10GrownState with lastSeqno := max c10GrownState.lastSeqno 0,
                             stableSeqno := true } 999 0
      = ({ c10GrownState with lastSeqno := max c10GrownState.lastSeqno 0,
                              stableSeqno := true }, true) from by
    unfold acknowledgeTelegramMessage
    rw [if_neg (by decide)]]
  refine ⟨rfl, ?_⟩
  show 32 ≤ c10GrownState.msgidsToAck.length
  unfold c10GrownState
  rw [(c10_fold_grows (List.range 35) c10StartState rfl).2]
  simp

/-- **C10 (amended)**: every content-bearing (odd-seqno) non-container
message triggers an unconditional flush attempt immediately after its id is
enqueued — `_acknowledge_telegram_message` is append-then-flush, not only a
threshold check — hence whenever the dispatch completes without exception
and `_stable_seqno` is true at its end, the ack buffer is empty after the
dispatched content message.  (The claim's further assertion that the
32-entry size threshold can only ever be reached while `_stable_seqno` is
false is refuted: an even-seqno `rpc_result` can set `_stable_seqno` with
32 or more entries already buffered and no intervening flush.) -/
theorem c10_content_message_flushes_buffer (s : ClientState) (mid : Nat) (sq : Int) (b : Body)
    (hnc : ∀ msgs, unwrapGzip b ≠ Body.msgContainer msgs)
    (hodd : (sq % 2 == 1) = true) :
    (∀ s' : ClientState, acknowledgeTelegramMessage s' mid sq
        = flushMsgidsToAck { s' with msgidsToAck := s'.msgidsToAck ++ [mid],
                                     ackEventLog := s'.ackEventLog ++ [mid] })
    ∧ ((processTelegramMessage s mid sq b).2 = true →
       (processTelegramMessage s mid sq b).1.stableSeqno = true →
       (processTelegramMessage s mid sq b).1.msgidsToAck = []) := by
  constructor
  · intro s'
    unfold acknowledgeTelegramMessage
    rw [if_pos hodd]
  · intro hok hst
    rw [processTelegramMessage_eq_noncontainer s mid sq b hnc] at hok hst ⊢
    cases hP : (processTelegramMessageBody { s with lastSeqno := max s.lastSeqno sq }
        (unwrapGzip b)).2 with
    | false =>
      rw [hP] at hok
      simp [hP] at hok
    | true =>
      simp only [hP, if_true] at hok hst ⊢
      unfold acknowledgeTelegramMessage at hok hst ⊢
      rw [if_pos hodd] at hok hst ⊢
      exact flush_empty_of_stable _ hok hst

/-- Witness for C10 at a concrete input: an odd-seqno unknown-body message
dispatched from `flushDemoState` (stable, non-empty buffer, live
transport) ends with `_stable_seqno` true and an empty ack buffer. -/
theorem c10_witness :
    (processTelegramMessage flushDemoState 20 1 Body.other).2 = true
    ∧ (processTelegramMessage flushDemoState 20 1 Body.other).1.stableSeqno = true
    ∧ (processTelegramMessage flushDemoState 20 1 Body.other).1.msgidsToAck = [] := by
  have hnc : ∀ msgs, unwrapGzip Body.other ≠ Body.msgContainer msgs := by
    intro msgs h
    simp [unwrapGzip] at h
  have hok : (processTelegramMessage flushDemoState 20 1 Body.other).2 = true := by
    rw [processTelegramMessage_eq_noncontainer _ 20 1 _ hnc]
    simp [processTelegramMessageBody, unwrapGzip, acknowledgeTelegramMessage,
      flushMsgidsToAck, flushDemoState, initialClientState, getNextEvenSeqno]
  have hst : (processTelegramMessage flushDemoState 20 1 Body.other).1.stableSeqno = true := by
    rw [processTelegramMessage_eq_noncontainer _ 20 1 _ hnc]
    simp [processTelegramMessageBody, unwrapGzip, acknowledgeTelegramMessage,
      flushMsgidsToAck, flushDemoState, initialClientState, getNextEvenSeqno]
  exact ⟨hok, hst,
    (c10_content_message_flushes_buffer flushDemoState 20 1 Body.other hnc (by decide)).2 hok hst⟩

/-- **C9 (counterexample)**: a resolution is attempted on an
already-resolved response slot: from `recoveryDemoState` (one pending
request registered under msg id 100, slot 0), a `pong` naming `msg_id=100`
resolves slot 0 with `{}` but leaves the registration in place
(`_process_pong` neither removes the entry nor checks `done()`); a
subsequent `rpc_result` with `req_msg_id=100` then finds the registration
and calls `set_result` on the already-resolved future — the
`InvalidStateError` counter ends at 1, contradicting "no operation ever
attempts to set a result or exception on an already-resolved slot". -/
theorem c9_counterexample :
    (processTelegramMessage
        (processTelegramMessage recoveryDemoState 300 0 (.pong 7 100)).1
        301 0 (.rpcResult 100 (.plain 9))).1.invalidStateAttempts = 1 := by
  have hnc1 : ∀ msgs, unwrapGzip (Body.pong 7 100) ≠ Body.msgContainer msgs := by
    intro msgs h
    simp [unwrapGzip] at h
  have hnc2 : ∀ msgs, unwrapGzip (Body.rpcResult 100 (.plain 9)) ≠ Body.msgContainer msgs := by
    intro msgs h
    simp [unwrapGzip] at h
  have e1 : processTelegramMessage recoveryDemoState 300 0 (.pong 7 100)
      = (c9MidState, true) := by
    rw [processTelegramMessage_eq_noncontainer _ 300 0 _ hnc1]
    rfl
  rw [e1]
  rw [processTelegramMessage_eq_noncontainer _ 301 0 _ hnc2]
  rfl

theorem getA_mem {α : Type} (l : List (Nat × α)) (k : Nat) (v : α)
    (h : getA l k = some v) : (k, v) ∈ l := by
  unfold getA at h
  cases hf : l.find? (fun p => p.1 == k) with
  | none => rw [hf] at h; simp at h
  | some p =>
    rw [hf] at h
    have hm := List.mem_of_find?_eq_some hf
    have hp := List.find?_some hf
    cases p with
    | mk x y =>
      simp only [beq_iff_eq] at hp
      simp at h
      subst hp
      subst h
      exact hm

theorem delA_mem {α : Type} (l : List (Nat × α)) (k : Nat) (p : Nat × α)
    (h : p ∈ delA l k) : p ∈ l ∧ p.1 ≠ k := by
  unfold delA at h
  have h1 := List.mem_of_mem_filter h
  have h2 := List.of_mem_filter h
  simp only [bne_iff_ne, ne_eq] at h2
  exact ⟨h1, h2⟩

theorem setA_mem {α : Type} (l : List (Nat × α)) (k : Nat) (v : α) (p : Nat × α)
    (h : p ∈ setA l k v) : p ∈ l ∨ p = (k, v) := by
  unfold setA at h
  rcases List.mem_append.mp h with h1 | h1
  · exact Or.inl (delA_mem l k p h1).1
  · simp at h1
    exact Or.inr h1

theorem delA_sublist {α : Type} (l : List (Nat × α)) (k : Nat) :
    (delA l k).Sublist l := List.filter_sublist l

theorem pairwise_delA {α : Type} (l : List (Nat × α)) (k : Nat)
    (R : Nat × α → Nat × α → Prop) (h : l.Pairwise R) : (delA l k).Pairwise R :=
  h.sublist (delA_sublist l k)

theorem flushMsgidsToAck_reg (s : ClientState) :
    (flushMsgidsToAck s).1.pendingRequests = s.pendingRequests
    ∧ (flushMsgidsToAck s).1.slots = s.slots
    ∧ (flushMsgidsToAck s).1.nextSlot = s.nextSlot
    ∧ (flushMsgidsToAck s).1.invalidStateAttempts = s.invalidStateAttempts := by
  simp only [flushMsgidsToAck]
  split
  · exact ⟨rfl, rfl, rfl, rfl⟩
  · cases h : s.mtproto <;> simp [h, getNextEvenSeqno]

theorem SafeInv_congr (s s' : ClientState) (a : Nat)
    (hp : s'.pendingRequests = s.pendingRequests) (hs : s'.slots = s.slots)
    (hn : s'.nextSlot = s.nextSlot) (ha : s'.invalidStateAttempts = s.invalidStateAttempts)
    (h : SafeInv s a) : SafeInv s' a := by
  obtain ⟨h1, h2, h3⟩ := h
  refine ⟨by rw [ha, h1], ?_, by rw [hp]; exact h3⟩
  intro p hmem
  rw [hp] at hmem
  rw [hs, hn]
  exact h2 p hmem

theorem PrOk_congr (s s' : ClientState) (pr : PendingRequest)
    (hp : s'.pendingRequests = s.pendingRequests) (hs : s'.slots = s.slots)
    (hn : s.nextSlot ≤ s'.nextSlot) (h : PrOk s pr) : PrOk s' pr := by
  obtain ⟨h1, h2, h3⟩ := h
  refine ⟨by rw [hs]; exact h1, by omega, ?_⟩
  intro q hq
  rw [hp] at hq
  exact h3 q hq

theorem createNewPingRequest_spec (s : ClientState) :
    ((createNewPingRequest s).slots
      = fun n => if n = s.nextSlot then SlotState.unresolved else s.slots n)
    ∧ (createNewPingRequest s).nextSlot = s.nextSlot + 1
    ∧ (createNewPingRequest s).invalidStateAttempts = s.invalidStateAttempts
    ∧ ((createNewPingRequest s).pendingRequests = s.pendingRequests
       ∨ ∃ mid req, (createNewPingRequest s).pendingRequests
           = setA s.pendingRequests mid ⟨req, s.nextSlot⟩) := by
  unfold createNewPingRequest
  cases h : s.mtproto with
  | none =>
    simp only [h, getNextOddSeqno]
    refine ⟨by trivial, by trivial, by trivial, Or.inl (by trivial)⟩
  | some t =>
    simp only [h, getNextOddSeqno]
    refine ⟨by trivial, by trivial, by trivial, Or.inr ⟨t.nextMsgId, _, by trivial⟩⟩

theorem createNewPingRequest_inv (s : ClientState) (a : Nat) (h : SafeInv s a) :
    SafeInv (createNewPingRequest s) a := by
  obtain ⟨hsl, hns, hat, hreg⟩ := createNewPingRequest_spec s
  obtain ⟨h1, h2, h3⟩ := h
  refine ⟨by rw [hat, h1], ?_, ?_⟩
  · intro p hp
    rw [hsl, hns]
    have hmem : p ∈ s.pendingRequests ∨ p.2.slot = s.nextSlot := by
      cases hreg with
      | inl hr =>
        rw [hr] at hp
        exact Or.inl hp
      | inr hr =>
        obtain ⟨mid, req, hr⟩ := hr
        rw [hr] at hp
        rcases setA_mem _ _ _ _ hp with h' | h'
        · exact Or.inl h'
        · right
          rw [h']
    rcases hmem with h' | h'
    · obtain ⟨hu, hb⟩ := h2 p h'
      have hne : p.2.slot ≠ s.nextSlot := by omega
      refine ⟨?_, by omega⟩
      show (if p.2.slot = s.nextSlot then SlotState.unresolved else s.slots p.2.slot)
        = SlotState.unresolved
      rw [if_neg hne]
      exact hu
    · rw [h']
      refine ⟨?_, by omega⟩
      show (if s.nextSlot = s.nextSlot then SlotState.unresolved else s.slots s.nextSlot)
        = SlotState.unresolved
      rw [if_pos rfl]
  · cases hreg with
    | inl hr =>
      rw [hr]
      exact h3
    | inr hr =>
      obtain ⟨mid, req, hr⟩ := hr
      rw [hr]
      unfold setA
      rw [List.pairwise_append]
      refine ⟨pairwise_delA _ _ _ h3, by simp, ?_⟩
      intro q hq r hr'
      simp only [List.mem_singleton] at hr'
      subst hr'
      obtain ⟨hql, _⟩ := delA_mem _ _ _ hq
      obtain ⟨_, hqb⟩ := h2 q hql
      simp only [ne_eq]
      omega

theorem createNewPingRequest_prOk (s : ClientState) (pr : PendingRequest)
    (h : PrOk s pr) : PrOk (createNewPingRequest s) pr := by
  obtain ⟨hsl, hns, hat, hreg⟩ := createNewPingRequest_spec s
  obtain ⟨h1, h2, h3⟩ := h
  refine ⟨?_, by rw [hns]; omega, ?_⟩
  · rw [hsl]
    show (if pr.slot = s.nextSlot then SlotState.unresolved else s.slots pr.slot)
      = SlotState.unresolved
    rw [if_neg (show pr.slot ≠ s.nextSlot by omega)]
    exact h1
  · intro q hq
    cases hreg with
    | inl hr =>
      rw [hr] at hq
      exact h3 q hq
    | inr hr =>
      obtain ⟨mid, req, hr⟩ := hr
      rw [hr] at hq
      rcases setA_mem _ _ _ _ hq with h' | h'
      · exact h3 q h'
      · rw [h']
        simp only [ne_eq]
        omega

theorem deletePendingRequest_slots_other (s : ClientState) (mid : Nat) (rm : Bool) (n : Nat)
    (hn : ∀ q ∈ s.pendingRequests, q.2.slot ≠ n) :
    (deletePendingRequest s mid rm).slots n = s.slots n := by
  unfold deletePendingRequest
  cases hA : getA s.pendingRequests mid with
  | none => rfl
  | some pr =>
    have hmem := getA_mem _ _ _ hA
    have hne : n ≠ pr.slot := fun h => hn (mid, pr) hmem (by rw [h])
    cases rm <;> by_cases hd : (s.slots pr.slot).isDone = true <;> simp [hd, hne]

theorem deletePendingRequest_invalid (s : ClientState) (mid : Nat) (rm : Bool) :
    (deletePendingRequest s mid rm).invalidStateAttempts = s.invalidStateAttempts := by
  unfold deletePendingRequest
  cases getA s.pendingRequests mid with
  | none => rfl
  | some pr =>
    cases rm <;> by_cases hd : (s.slots pr.slot).isDone = true <;> simp [hd]

theorem foldlDelete_slots_other (l : List (Nat × PendingRequest)) (s : ClientState) (n : Nat)
    (hn : ∀ q ∈ s.pendingRequests, q.2.slot ≠ n) :
    (l.foldl (fun acc p => deletePendingRequest acc p.1 false) s).slots n = s.slots n := by
  induction l generalizing s with
  | nil => rfl
  | cons p rest ih =>
    rw [List.foldl_cons]
    rw [ih _ (by rw [deletePendingRequest_registry_false]; exact hn)]
    exact deletePendingRequest_slots_other s p.1 false n hn

theorem foldlDelete_invalid (l : List (Nat × PendingRequest)) (s : ClientState) :
    (l.foldl (fun acc p => deletePendingRequest acc p.1 false) s).invalidStateAttempts
      = s.invalidStateAttempts := by
  induction l generalizing s with
  | nil => rfl
  | cons p rest ih =>
    rw [List.foldl_cons, ih, deletePendingRequest_invalid]

theorem deleteAllPendingData_spec (s : ClientState) :
    (deleteAllPendingData s).pendingRequests = []
    ∧ (deleteAllPendingData s).nextSlot = s.nextSlot
    ∧ (deleteAllPendingData s).invalidStateAttempts = s.invalidStateAttempts
    ∧ ∀ n, (∀ q ∈ s.pendingRequests, q.2.slot ≠ n) →
        (deleteAllPendingData s).slots n = s.slots n := by
  unfold deleteAllPendingData deleteAllPendingRequests
  refine ⟨rfl, ?_, ?_, ?_⟩
  · obtain ⟨sl, h⟩ := foldlDelete_shape (deleteAllPendingPongs s).pendingRequests
      (deleteAllPendingPongs s)
    rw [h]
    rfl
  · rw [show ((deleteAllPendingPongs s).pendingRequests.foldl
        (fun acc p => deletePendingRequest acc p.1 false)
        (deleteAllPendingPongs s)).invalidStateAttempts
      = (deleteAllPendingPongs s).invalidStateAttempts from foldlDelete_invalid _ _]
    rfl
  · intro n hn
    rw [show ((deleteAllPendingPongs s).pendingRequests.foldl
        (fun acc p => deletePendingRequest acc p.1 false)
        (deleteAllPendingPongs s)).slots n
      = (deleteAllPendingPongs s).slots n from foldlDelete_slots_other _ _ n hn]
    rfl

theorem startMtprotoLoop_inv (s : ClientState) (a : Nat) (h : SafeInv s a) :
    SafeInv (startMtprotoLoop s) a ∧ s.nextSlot ≤ (startMtprotoLoop s).nextSlot
    ∧ ∀ pr : PendingRequest, PrOk s pr → PrOk (startMtprotoLoop s) pr := by
  obtain ⟨ha, h2, h3⟩ := h
  obtain ⟨hd1, hd2, hd3, hd4⟩ := deleteAllPendingData_spec s
  unfold startMtprotoLoop
  set sd := deleteAllPendingData s with hsd
  set sm : ClientState := { sd with
    mtproto := some { serverSalt := 0, nextMsgId := 0, writes := [] },
    mtprotoLoopTask := some false } with hsm
  have hmInv : SafeInv sm a := by
    refine ⟨?_, ?_, ?_⟩
    · show sd.invalidStateAttempts = a
      rw [hd3, ha]
    · intro p hp
      rw [show sm.pendingRequests = sd.pendingRequests from rfl, hd1] at hp
      cases hp
    · rw [show sm.pendingRequests = sd.pendingRequests from rfl, hd1]
      exact List.Pairwise.nil
  obtain ⟨hc1, hc2, hc3⟩ := createNewPingRequest_inv sm a hmInv
  obtain ⟨hcsl, hcns, hcat, hcreg⟩ := createNewPingRequest_spec sm
  refine ⟨⟨hc1, hc2, hc3⟩, ?_, ?_⟩
  · rw [hcns]
    show s.nextSlot ≤ sd.nextSlot + 1
    rw [hd2]
    omega
  · intro pr hpr
    obtain ⟨hp1, hp2, hp3⟩ := hpr
    have hmOk : PrOk sm pr := by
      refine ⟨?_, ?_, ?_⟩
      · show sd.slots pr.slot = SlotState.unresolved
        rw [hd4 pr.slot (fun q hq => hp3 q hq), hp1]
      · show pr.slot < sd.nextSlot
        rw [hd2]
        exact hp2
      · intro q hq
        rw [show sm.pendingRequests = sd.pendingRequests from rfl, hd1] at hq
        cases hq
    exact createNewPingRequest_prOk sm pr hmOk

theorem pairwise_slots_ne (l : List (Nat × PendingRequest))
    (h : l.Pairwise (fun p q => p.2.slot ≠ q.2.slot)) :
    ∀ p ∈ l, ∀ q ∈ l, p ≠ q → p.2.slot ≠ q.2.slot := by
  induction l with
  | nil => intro p hp; cases hp
  | cons hd rest ih =>
    rw [List.pairwise_cons] at h
    intro p hp q hq hne
    rcases List.mem_cons.mp hp with hp' | hp' <;>
      rcases List.mem_cons.mp hq with hq' | hq'
    · exact absurd (hp'.trans hq'.symm) hne
    · subst hp'
      exact h.1 q hq'
    · subst hq'
      exact (h.1 p hp').symm
    · exact ih h.2 p hp' q hq' hne

theorem setA_safe (s : ClientState) (a mid : Nat) (pr : PendingRequest)
    (hs : SafeInv s a) (hpr : PrOk s pr) :
    (∀ p ∈ setA s.pendingRequests mid pr,
        s.slots p.2.slot = SlotState.unresolved ∧ p.2.slot < s.nextSlot)
    ∧ (setA s.pendingRequests mid pr).Pairwise (fun p q => p.2.slot ≠ q.2.slot) := by
  obtain ⟨h1, h2, h3⟩ := hs
  obtain ⟨g1, g2, g3⟩ := hpr
  constructor
  · intro p hp
    rcases setA_mem _ _ _ _ hp with h' | h'
    · exact h2 p h'
    · rw [h']
      exact ⟨g1, g2⟩
  · unfold setA
    rw [List.pairwise_append]
    refine ⟨pairwise_delA _ _ _ h3, by simp, ?_⟩
    intro q hq r hr
    simp only [List.mem_singleton] at hr
    subst hr
    exact g3 q (delA_mem _ _ _ hq).1

theorem delA_SafeInv (s : ClientState) (a mid : Nat) (h : SafeInv s a) :
    SafeInv { s with pendingRequests := delA s.pendingRequests mid } a := by
  obtain ⟨h1, h2, h3⟩ := h
  refine ⟨h1, ?_, pairwise_delA _ _ _ h3⟩
  intro p hp
  exact h2 p (delA_mem _ _ _ hp).1

theorem detach_PrOk (s : ClientState) (a mid : Nat) (pr : PendingRequest)
    (h : SafeInv s a) (hA : getA s.pendingRequests mid = some pr) :
    PrOk { s with pendingRequests := delA s.pendingRequests mid } pr := by
  obtain ⟨h1, h2, h3⟩ := h
  have hmem := getA_mem _ _ _ hA
  obtain ⟨hu, hb⟩ := h2 (mid, pr) hmem
  refine ⟨hu, hb, ?_⟩
  intro q hq
  obtain ⟨hql, hqk⟩ := delA_mem _ _ _ hq
  exact pairwise_slots_ne _ h3 q hql (mid, pr) hmem (fun he => hqk (by rw [he]))

theorem rpcCallSend_inv (s : ClientState) (pr : PendingRequest) (nr : Bool) (a : Nat)
    (hs : SafeInv s a) (hpr : PrOk s pr) :
    SafeInv (rpcCallSend s pr nr).1 a := by
  simp only [rpcCallSend]
  set s1 := if s.mtproto.isNone || s.mtprotoLoopTask.getD true
      then startMtprotoLoop s else s with hs1
  have hInv1 : SafeInv s1 a := by
    rw [hs1]
    split
    · exact (startMtprotoLoop_inv s a hs).1
    · exact hs
  have hOk1 : PrOk s1 pr := by
    rw [hs1]
    split
    · exact (startMtprotoLoop_inv s a hs).2.2 pr hpr
    · exact hpr
  obtain ⟨fr1, fr2, fr3, fr4⟩ := flushMsgidsToAck_reg s1
  have hInv2 : SafeInv (flushMsgidsToAck s1).1 a :=
    SafeInv_congr s1 (flushMsgidsToAck s1).1 a fr1 fr2 fr3 fr4 hInv1
  have hOk2 : PrOk (flushMsgidsToAck s1).1 pr :=
    PrOk_congr s1 (flushMsgidsToAck s1).1 pr fr1 fr2 (by omega) hOk1
  split
  · exact hInv2
  · split
    · exact SafeInv_congr (flushMsgidsToAck s1).1 _ a rfl rfl rfl rfl hInv2
    · rename_i t ht
      obtain ⟨w1, w2⟩ := setA_safe (flushMsgidsToAck s1).1 a t.nextMsgId pr hInv2 hOk2
      split
      · exact ⟨hInv2.1, w1, w2⟩
      · exact ⟨hInv2.1, w1, w2⟩

theorem setSlotResult_SafeInv (s : ClientState) (n : Nat) (v : SlotState) (a : Nat)
    (hs : SafeInv s a) (hn : ∀ p ∈ s.pendingRequests, p.2.slot ≠ n)
    (hu : s.slots n = SlotState.unresolved) :
    SafeInv (setSlotResult s n v).1 a := by
  obtain ⟨h1, h2, h3⟩ := hs
  unfold setSlotResult
  rw [hu]
  rw [if_neg (show ¬ (SlotState.unresolved.isDone = true) by decide)]
  refine ⟨h1, ?_, h3⟩
  intro p hp
  obtain ⟨hu', hb'⟩ := h2 p hp
  refine ⟨?_, hb'⟩
  show (if p.2.slot = n then v else s.slots p.2.slot) = SlotState.unresolved
  rw [if_neg (hn p hp)]
  exact hu'

theorem processRpcResult_inv (s : ClientState) (reqMsgId : Nat) (res : RpcRes) (a : Nat)
    (h : SafeInv s a) : SafeInv (processRpcResult s reqMsgId res).1 a := by
  simp only [processRpcResult]
  split
  · exact h
  · rename_i pr hA
    obtain ⟨h1, h2, h3⟩ := h
    have hmem := getA_mem _ _ _ hA
    obtain ⟨hu, hb⟩ := h2 (reqMsgId, pr) hmem
    apply setSlotResult_SafeInv
    · exact delA_SafeInv s a reqMsgId ⟨h1, h2, h3⟩
    · intro p hp
      obtain ⟨hpl, hpk⟩ := delA_mem _ _ _ hp
      exact pairwise_slots_ne _ h3 p hpl (reqMsgId, pr) hmem (fun he => hpk (by rw [he]))
    · exact hu

theorem processBadServerSalt_inv (s : ClientState) (bmid : Nat) (salt : Int) (a : Nat)
    (h : SafeInv s a) : SafeInv (processBadServerSalt s bmid salt).1 a := by
  simp only [processBadServerSalt]
  split
  · exact h
  · rename_i t ht
    split
    · rename_i pr hA
      split
      · rename_i hc
        rw [if_pos hc] at hA
        have hinv2 : SafeInv
            { s with stableSeqno := false, mtproto := some (t.setServerSalt salt) } a := h
        exact rpcCallSend_inv _ pr true a
          (delA_SafeInv _ a bmid hinv2) (detach_PrOk _ a bmid pr hinv2 hA)
      · rename_i hc
        rw [if_neg hc] at hA
        have hinv2 : SafeInv { s with mtproto := some (t.setServerSalt salt) } a := h
        exact rpcCallSend_inv _ pr true a
          (delA_SafeInv _ a bmid hinv2) (detach_PrOk _ a bmid pr hinv2 hA)
    · split <;> exact h

theorem processBadMsgSeqnoTooLow_inv (s : ClientState) (bmid : Nat) (a : Nat)
    (h : SafeInv s a) : SafeInv (processBadMsgSeqnoTooLow s bmid).1 a := by
  simp only [processBadMsgSeqnoTooLow]
  split
  · rename_i pr hA
    exact rpcCallSend_inv _ pr true a (delA_SafeInv _ a bmid h)
      (detach_PrOk _ a bmid pr h hA)
  · exact h

theorem processTelegramMessageBody_inv (s : ClientState) (b : Body) (a : Nat)
    (hp : bodyHasPong b = false) (h : SafeInv s a) :
    SafeInv (processTelegramMessageBody s b).1 a := by
  cases b with
  | rpcResult req res => exact processRpcResult_inv s req res a h
  | pong pid mid => simp [bodyHasPong] at hp
  | badServerSalt bmid salt => exact processBadServerSalt_inv s bmid salt a h
  | badMsgNotification bmid ec =>
    simp only [processTelegramMessageBody]
    split
    · exact processBadMsgSeqnoTooLow_inv s bmid a h
    · exact h
  | gzipPacked inner => exact h
  | msgContainer msgs => exact h
  | other => exact h

theorem acknowledgeTelegramMessage_inv (s : ClientState) (mid : Nat) (sq : Int) (a : Nat)
    (h : SafeInv s a) :
    SafeInv (acknowledgeTelegramMessage s mid sq).1 a := by
  simp only [acknowledgeTelegramMessage]
  split
  · obtain ⟨f1, f2, f3, f4⟩ := flushMsgidsToAck_reg
      { s with msgidsToAck := s.msgidsToAck ++ [mid], ackEventLog := s.ackEventLog ++ [mid] }
    exact SafeInv_congr _ _ a f1 f2 f3 f4 h
  · exact h

theorem flushIfNeeded_inv (s : ClientState) (a : Nat) (h : SafeInv s a) :
    SafeInv (flushMsgidsToAckIfNeeded s).1 a := by
  simp only [flushMsgidsToAckIfNeeded]
  split
  · obtain ⟨f1, f2, f3, f4⟩ := flushMsgidsToAck_reg s
    exact SafeInv_congr _ _ a f1 f2 f3 f4 h
  · exact h

theorem deletePendingRequest_inv (s : ClientState) (mid : Nat) (a : Nat)
    (h : SafeInv s a) : SafeInv (deletePendingRequest s mid true) a := by
  obtain ⟨h1, h2, h3⟩ := h
  simp only [deletePendingRequest]
  split
  · exact ⟨h1, h2, h3⟩
  · rename_i pr hA
    have hmem := getA_mem _ _ _ hA
    rw [if_pos trivial]
    split
    · exact delA_SafeInv s a mid ⟨h1, h2, h3⟩
    · refine ⟨h1, ?_, pairwise_delA _ _ _ h3⟩
      intro p hp
      obtain ⟨hpl, hpk⟩ := delA_mem _ _ _ hp
      obtain ⟨hu', hb'⟩ := h2 p hpl
      have hne : p.2.slot ≠ pr.slot :=
        pairwise_slots_ne _ h3 p hpl (mid, pr) hmem (fun he => hpk (by rw [he]))
      refine ⟨?_, hb'⟩
      show (if p.2.slot = pr.slot then SlotState.errInterrupted else s.slots p.2.slot)
        = SlotState.unresolved
      rw [if_neg hne]
      exact hu'

theorem disconnect_inv (s : ClientState) (a : Nat) (h : SafeInv s a) :
    SafeInv (disconnect s) a := by
  obtain ⟨hd1, hd2, hd3, hd4⟩ := deleteAllPendingData_spec s
  refine ⟨?_, ?_, ?_⟩
  · show (deleteAllPendingData s).invalidStateAttempts = a
    rw [hd3, h.1]
  · intro p hp
    have hp' : p ∈ (deleteAllPendingData s).pendingRequests := hp
    rw [hd1] at hp'
    cases hp'
  · show List.Pairwise _ (deleteAllPendingData s).pendingRequests
    rw [hd1]
    exact List.Pairwise.nil

theorem rpcCall_inv (s : ClientState) (msg : List (String × String)) (a : Nat)
    (h : SafeInv s a) : SafeInv (rpcCall s msg).1 a := by
  obtain ⟨h1, h2, h3⟩ := h
  simp only [rpcCall]
  split
  · exact ⟨h1, h2, h3⟩
  · apply rpcCallSend_inv _ _ false a
    · refine ⟨h1, ?_, h3⟩
      intro p hp
      obtain ⟨hu, hb⟩ := h2 p hp
      refine ⟨?_, ?_⟩
      · show (if p.2.slot = s.nextSlot then SlotState.unresolved else s.slots p.2.slot)
          = SlotState.unresolved
        rw [if_neg (by omega)]
        exact hu
      · show p.2.slot < s.nextSlot + 1
        omega
    · refine ⟨?_, ?_, ?_⟩
      · show (if s.nextSlot = s.nextSlot then SlotState.unresolved else s.slots s.nextSlot)
          = SlotState.unresolved
        rw [if_pos rfl]
      · show s.nextSlot < s.nextSlot + 1
        omega
      · intro q hq
        obtain ⟨hu, hb⟩ := h2 q hq
        show q.2.slot ≠ s.nextSlot
        omega

theorem bodyHasPong_unwrap (b : Body) : bodyHasPong (unwrapGzip b) = bodyHasPong b := by
  cases b <;> simp [unwrapGzip, bodyHasPong]

theorem msgsHavePong_of_unwrap (b : Body) (msgs : List (Nat × Int × Body))
    (hb : unwrapGzip b = Body.msgContainer msgs) (hp : bodyHasPong b = false) :
    msgsHavePong msgs = false := by
  have h' := bodyHasPong_unwrap b
  rw [hb, hp] at h'
  simpa [bodyHasPong] using h'

theorem processTelegramMessage_inv :
    ∀ (s : ClientState) (msgId : Nat) (seqno : Int) (b : Body) (a : Nat),
      bodyHasPong b = false → SafeInv s a →
      SafeInv (processTelegramMessage s msgId seqno b).1 a := by
  refine processTelegramMessage.induct
    (fun s msgId seqno b =>
      ∀ a, bodyHasPong b = false → SafeInv s a →
        SafeInv (processTelegramMessage s msgId seqno b).1 a)
    (fun s ms =>
      ∀ a, msgsHavePong ms = false → SafeInv s a →
        SafeInv (processContainerMessages s ms).1 a)
    ?_ ?_ ?_ ?_ ?_ ?_
  · intro s msgId seqno b s1 msgs hb ih a hpong hinv
    rw [processTelegramMessage_eq_container s msgId seqno b msgs hb]
    exact ih a (msgsHavePong_of_unwrap b msgs hb hpong) hinv
  · intro s msgId seqno b s1 hnc r hr2 a hpong hinv
    have hnc' : ∀ msgs, unwrapGzip b ≠ Body.msgContainer msgs := fun msgs h => hnc msgs h
    rw [processTelegramMessage_eq_noncontainer s msgId seqno b hnc']
    have hpong' : bodyHasPong (unwrapGzip b) = false := by
      rw [bodyHasPong_unwrap]
      exact hpong
    have hbody : SafeInv (processTelegramMessageBody
        { s with lastSeqno := max s.lastSeqno seqno } (unwrapGzip b)).1 a :=
      processTelegramMessageBody_inv _ (unwrapGzip b) a hpong' hinv
    split
    · exact acknowledgeTelegramMessage_inv _ msgId seqno a hbody
    · exact acknowledgeTelegramMessage_inv _ msgId seqno a hbody
  · intro s msgId seqno b s1 hnc r hnr a hpong hinv
    have hnc' : ∀ msgs, unwrapGzip b ≠ Body.msgContainer msgs := fun msgs h => hnc msgs h
    rw [processTelegramMessage_eq_noncontainer s msgId seqno b hnc']
    have hpong' : bodyHasPong (unwrapGzip b) = false := by
      rw [bodyHasPong_unwrap]
      exact hpong
    have hbody : SafeInv (processTelegramMessageBody
        { s with lastSeqno := max s.lastSeqno seqno } (unwrapGzip b)).1 a :=
      processTelegramMessageBody_inv _ (unwrapGzip b) a hpong' hinv
    split
    · exact acknowledgeTelegramMessage_inv _ msgId seqno a hbody
    · exact hbody
  · intro s a hpong hinv
    rw [processContainerMessages_nil]
    exact hinv
  · intro s mid sq b rest r hr2 ih1 ih2 a hpong hinv
    rw [msgsHavePong] at hpong
    rw [Bool.or_eq_false_iff] at hpong
    rw [processContainerMessages_cons]
    split
    · exact ih2 a hpong.2 (ih1 a hpong.1 hinv)
    · exact ih2 a hpong.2 (ih1 a hpong.1 hinv)
  · intro s mid sq b rest r hnr ih1 a hpong hinv
    rw [msgsHavePong] at hpong
    rw [Bool.or_eq_false_iff] at hpong
    rw [processContainerMessages_cons]
    split
    · rename_i hcond
      exact absurd hcond hnr
    · exact ih1 a hpong.1 hinv

theorem mtprotoLoopStep_inv (s : ClientState) (mid : Nat) (sq : Int) (b : Body) (a : Nat)
    (hp : bodyHasPong b = false) (h : SafeInv s a) :
    SafeInv (mtprotoLoopStep s mid sq b) a := by
  simp only [mtprotoLoopStep]
  split
  · exact flushIfNeeded_inv _ a (processTelegramMessage_inv s mid sq b a hp h)
  · exact processTelegramMessage_inv s mid sq b a hp h

theorem sessionStep_inv (s : ClientState) (op : SessionOp) (a : Nat)
    (hop : opPongFree op = true) (h : SafeInv s a) :
    SafeInv (sessionStep s op) a := by
  cases op with
  | inbound mid sq b =>
    have hp : bodyHasPong b = false := by
      simp only [opPongFree, Bool.not_eq_eq_eq_not, Bool.not_true] at hop
      exact hop
    simp only [sessionStep]
    split
    · exact mtprotoLoopStep_inv s mid sq b a hp h
    · exact h
  | callRpc msg => exact rpcCall_inv s msg a h
  | expire mid => exact deletePendingRequest_inv s mid a h
  | doDisconnect => exact disconnect_inv s a h

theorem runSession_inv (ops : List SessionOp) : ∀ (s : ClientState) (a : Nat),
    ops.all opPongFree = true → SafeInv s a → SafeInv (runSession s ops) a := by
  induction ops with
  | nil =>
    intro s a _ h
    exact h
  | cons op rest ih =>
    intro s a hops h
    rw [List.all_cons, Bool.and_eq_true] at hops
    exact ih (sessionStep s op) a hops.2 (sessionStep_inv s op a hops.1 h)

/-- **C9** (amended): excluding pong fulfilment, a pending request's
response slot is resolved at most once along every session trace from the
initial state: under arbitrary interleavings of inbound dispatches
(rpc_result fulfilment, bad_server_salt and seqno-too-low recovery with
their no-response re-submissions, containers and gzip wrappers), rpc_call
submissions, 600-second expiries and disconnects, no operation ever
attempts to set a result or an exception on an already-resolved future —
the `InvalidStateError` counter stays 0.  The unamended claim is refuted by
`c9_counterexample`: `_process_pong` resolves the slot registered under the
pong's msg_id without removing the registration and without a `done()`
check, so a pong followed by an rpc_result for the same msg id
double-resolves the same slot. -/
theorem c9_slot_resolved_at_most_once_pong_free (clock : Int) (rng : List Int)
    (ops : List SessionOp) (hops : ops.all opPongFree = true) :
    (runSession (initialClientState clock rng) ops).invalidStateAttempts = 0 := by
  have h0 : SafeInv (initialClientState clock rng) 0 := by
    refine ⟨rfl, ?_, List.Pairwise.nil⟩
    intro p hp
    simp [initialClientState] at hp
  exact (runSession_inv ops (initialClientState clock rng) 0 hops h0).1

/-- Witness for the amended C9 on a concrete pong-free trace: an rpc_call,
an error-32 seqno recovery re-submitting it, an rpc_result fulfilling the
re-sent request, its 600-second expiry firing afterwards, and a disconnect
— no InvalidStateError is ever raised. -/
theorem c9_witness :
    ([SessionOp.callRpc [("_cons", "help.getConfig")],
      SessionOp.inbound 3 1 (Body.badMsgNotification 0 32),
      SessionOp.inbound 4 2 (Body.rpcResult 0 (RpcRes.plain 9)),
      SessionOp.expire 0,
      SessionOp.doDisconnect].all opPongFree = true)
    ∧ (runSession (initialClientState 0 [])
        [SessionOp.callRpc [("_cons", "help.getConfig")],
         SessionOp.inbound 3 1 (Body.badMsgNotification 0 32),
         SessionOp.inbound 4 2 (Body.rpcResult 0 (RpcRes.plain 9)),
         SessionOp.expire 0,
         SessionOp.doDisconnect]).invalidStateAttempts = 0 := by
  have hops : ([SessionOp.callRpc [("_cons", "help.getConfig")],
      SessionOp.inbound 3 1 (Body.badMsgNotification 0 32),
      SessionOp.inbound 4 2 (Body.rpcResult 0 (RpcRes.plain 9)),
      SessionOp.expire 0,
      SessionOp.doDisconnect].all opPongFree) = true := by decide
  exact ⟨hops, c9_slot_resolved_at_most_once_pong_free 0 [] _ hops⟩

/-- Witness for C2 at the concrete premise state `recoveryDemoState`
(`last_seqno = 1`, salt 7, transport msg-id counter at 50). -/
theorem c2_witness :
    (processTelegramMessage recoveryDemoState 200 0 (.badMsgNotification 100 32)).1.seqnoIncrement = 3
    ∧ (processTelegramMessage recoveryDemoState 200 0 (.badMsgNotification 100 32)).1.lastSeqno
        = nextOddVal (1 + 2)
    ∧ getA (processTelegramMessage recoveryDemoState 200 0 (.badMsgNotification 100 32)).1.pendingRequests
        50 = some ⟨[("_cons", "help.getConfig")], 0⟩
    ∧ (processTelegramMessage
         (processTelegramMessage recoveryDemoState 200 0 (.badMsgNotification 100 32)).1
         201 0 (.badMsgNotification 50 32)).1.seqnoIncrement = 7
    ∧ (processTelegramMessage
         (processTelegramMessage recoveryDemoState 200 0 (.badMsgNotification 100 32)).1
         201 0 (.badMsgNotification 50 32)).1.lastSeqno
        = nextOddVal (nextOddVal (1 + 2) + 6) :=
  c2_error32_doubles_then_send_bumps recoveryDemoState ⟨7, 50, []⟩
    ⟨[("_cons", "help.getConfig")], 0⟩ 200 201 rfl rfl rfl rfl rfl (by decide)

end LLMTProto
